import Mathlib

/-!
Shallow embedding of the ETL transformation core of the repository
(`app/processing/cleaner.py` and `app/processing/transformer.py`).

Tables are modelled as a list of column names together with a list of rows;
a row is an association list from column name to cell.  A cell is a string,
an exact rational number (modelling pandas numerics; `Cell.null` models
NaN/NaT/None), mirroring an object-dtype DataFrame as produced from CSV
input.  Pandas/NumPy operations used by the source are translated
pointwise; floating-point values are modelled by exact rationals, with
`round` modelled as round-half-to-even (the IEEE default used by
`numpy.round`).
-/

namespace GovSense

set_option maxRecDepth 16000 in
set_option maxHeartbeats 1000000 in
/-- A cell of a DataFrame: a string, a numeric value (pandas int/float,
modelled exactly by `ℚ`), or a missing value (NaN/None/NaT). -/
inductive Cell where
  | str : String → Cell
  | num : ℚ → Cell
  | null : Cell
deriving DecidableEq, Repr

/-- A row: association list from column name to cell value. -/
abbrev Row := List (String × Cell)

/-- A DataFrame: ordered column names plus rows keyed by column name. -/
structure Table where
  cols : List String
  rows : List Row
deriving DecidableEq, Repr

/-- Look a column up in a row; a missing key reads as NaN, like a cell
that was never assigned in a DataFrame. -/
def Row.get (r : Row) (c : String) : Cell :=
  match r.find? (fun p => p.1 = c) with
  | some p => p.2
  | none => Cell.null

/-- Set (or add) one column of a row. -/
def Row.set (r : Row) (c : String) (v : Cell) : Row :=
  (r.filter (fun p => ¬ p.1 = c)) ++ [(c, v)]

/-- Apply `f` to column `c` of every row (a pandas `df[c] = f(df[c])`
column assignment); the column is appended to the schema if new. -/
def Table.mapCol (t : Table) (c : String) (f : Cell → Cell) : Table :=
  { cols := if c ∈ t.cols then t.cols else t.cols ++ [c],
    rows := t.rows.map (fun r => r.set c (f (r.get c))) }

/-- Derive a new column from whole rows (`df[c] = g(df)`). -/
def Table.setCol (t : Table) (c : String) (f : Row → Cell) : Table :=
  { cols := if c ∈ t.cols then t.cols else t.cols ++ [c],
    rows := t.rows.map (fun r => r.set c (f r)) }

/-- Restrict to the given columns, in the given order (`df[keep]`). -/
def Table.select (t : Table) (keep : List String) : Table :=
  { cols := keep,
    rows := t.rows.map (fun r => keep.map (fun c => (c, r.get c))) }

/-- Model of `df.dropna(subset=...)`: keep rows where every listed column is
non-null. -/
def Table.dropna (t : Table) (subset : List String) : Table :=
  { cols := t.cols,
    rows := t.rows.filter (fun r => subset.all (fun c => ¬ r.get c = Cell.null)) }

/-- Model of `df.rename(columns=m)` for an alias map `m`: every occurrence of an
old name is replaced by its target, in the schema and in row keys. -/
def renameName (m : List (String × String)) (c : String) : String :=
  match m.find? (fun p => p.1 = c) with
  | some p => p.2
  | none => c

def Table.rename (t : Table) (m : List (String × String)) : Table :=
  { cols := t.cols.map (renameName m),
    rows := t.rows.map (fun r => r.map (fun p => (renameName m p.1, p.2))) }

/-! ### Python string helpers used by the source -/

/-- Whitespace as stripped by Python `str.strip()` (ASCII fragment:
space, tab, newline, carriage return). -/
def isPySpace (c : Char) : Bool :=
  c.toNat = 32 ∨ c.toNat = 9 ∨ c.toNat = 10 ∨ c.toNat = 13

/-- Python `str.strip()`. -/
def pyStrip (s : String) : String :=
  ⟨(s.data.dropWhile isPySpace).rdropWhile isPySpace⟩

/-- Python `str.lstrip("0")`. -/
def lstripZeros (s : String) : String :=
  ⟨s.data.dropWhile (fun c => c = '0')⟩

/-- Python `str.zfill(3)` (no sign handling needed: codes are unsigned). -/
def zfill3 (s : String) : String :=
  if s.length ≥ 3 then s
  else ⟨List.replicate (3 - s.length) '0' ++ s.data⟩

/-- Python `str.lower()` on one character (ASCII fragment: the regex
class the normalizer targets is ASCII). `65..90` are `A..Z`. -/
def lowerChar (c : Char) : Char :=
  if 65 ≤ c.toNat ∧ c.toNat ≤ 90 then Char.ofNat (c.toNat + 32) else c

/-- Python `str.lower()`. -/
def pyLower (s : String) : String :=
  ⟨s.data.map lowerChar⟩

/-- Characters counted as letters by `str.title()` word boundaries. -/
def isCased (c : Char) : Bool := c.isAlpha

/-- Python `str.title()`: the first cased character of every run of cased
characters is uppercased, the rest lowercased. `prevCased` records
whether the previous character was cased. -/
def titleChars : Bool → List Char → List Char
  | _, [] => []
  | prevCased, c :: rest =>
      (if isCased c then (if prevCased then c.toLower else c.toUpper) else c)
        :: titleChars (isCased c) rest

def pyTitle (s : String) : String := ⟨titleChars false s.data⟩

/-! ### Numeric parsing (`pd.to_numeric(errors="coerce")`) -/

/-- Digits of a numeral to a natural number. -/
def digitsToNat (l : List Char) : ℕ :=
  l.foldl (fun acc c => acc * 10 + (c.toNat - '0'.toNat)) 0

/-- Parse an optionally signed decimal numeral `[-+]digits[.digits]`.
Models the fragment of the pandas numeric parser the datasets exercise;
anything else coerces to NaN. -/
def parseNumeral (s : String) : Option ℚ :=
  let l := (pyStrip s).data
  let (sign, l) : ℚ × List Char :=
    match l with
    | '-' :: rest => (-1, rest)
    | '+' :: rest => (1, rest)
    | _ => (1, l)
  let intPart := l.takeWhile Char.isDigit
  let rest := l.dropWhile Char.isDigit
  match rest with
  | [] =>
      if intPart.isEmpty then none
      else some (sign * digitsToNat intPart)
  | '.' :: frac =>
      if frac.all Char.isDigit ∧ ¬ (intPart.isEmpty ∧ frac.isEmpty) then
        some (sign * (digitsToNat intPart +
          (digitsToNat frac : ℚ) / (10 ^ frac.length)))
      else none
  | _ => none

/-- Model of `pd.to_numeric(x, errors="coerce")` on one cell. -/
def toNumeric (c : Cell) : Cell :=
  match c with
  | Cell.num q => Cell.num q
  | Cell.null => Cell.null
  | Cell.str s =>
      match parseNumeral s with
      | some q => Cell.num q
      | none => Cell.null

/-- Model of `.fillna(0)` on one cell. -/
def fillZero (c : Cell) : Cell :=
  match c with
  | Cell.null => Cell.num 0
  | c => c

/-- Truncation toward zero, as Python `int()` / `.astype(int)`. -/
def truncQ (q : ℚ) : ℤ :=
  if 0 ≤ q then ⌊q⌋ else -⌊-q⌋

/-- Model of `.astype(int)` on one (numeric) cell. -/
def castInt (c : Cell) : Cell :=
  match c with
  | Cell.num q => Cell.num (truncQ q)
  | c => c

/-- Decimal rendering of a natural number. -/
def natToDigits (n : ℕ) : String := toString n

/-- Model of `astype(str)` on one cell. Integral numerics render as their digits,
NaN renders as `"nan"` (pandas object-dtype behaviour); non-integral
numerics render with their fractional part (approximation of the float
repr — the datasets' code columns are integral or already strings). -/
def cellToStr (c : Cell) : String :=
  match c with
  | Cell.str s => s
  | Cell.null => "nan"
  | Cell.num q =>
      if q.den = 1 then
        (if q.num < 0 then "-" ++ natToDigits q.num.natAbs else natToDigits q.num.natAbs)
      else toString q

/-! ### Rounding: `numpy.round` is round-half-to-even -/

/-- Round-half-to-even to an integer. -/
def roundHalfEven (q : ℚ) : ℤ :=
  let f := ⌊q⌋
  let frac := q - f
  if frac < 1/2 then f
  else if 1/2 < frac then f + 1
  else if f % 2 = 0 then f else f + 1

/-- Model of `.round(2)` on a rational. -/
def round2 (q : ℚ) : ℚ := (roundHalfEven (q * 100) : ℚ) / 100

/-- Model of `.round(2)` on a cell (null propagates). -/
def round2Cell (c : Cell) : Cell :=
  match c with
  | Cell.num q => Cell.num (round2 q)
  | c => c

/-- Cell addition (`df[a] + df[b]` on numeric columns); NaN propagates. -/
def addCell (a b : Cell) : Cell :=
  match a, b with
  | Cell.num x, Cell.num y => Cell.num (x + y)
  | _, _ => Cell.null

/-- Cell division; division by zero and non-numeric operands are modelled
as null (the source guards the denominator, so inf/NaN are unreachable). -/
def divCell (a b : Cell) : Cell :=
  match a, b with
  | Cell.num x, Cell.num y => if y = 0 then Cell.null else Cell.num (x / y)
  | _, _ => Cell.null

/-- Model of `.replace(0, 1)` on one cell. -/
def replaceZeroOne (c : Cell) : Cell :=
  if c = Cell.num 0 then Cell.num 1 else c

/-- Sum of the numeric cells of a column (pandas `sum` skips NaN). -/
def sumCells (l : List Cell) : ℚ :=
  l.foldl (fun acc c => match c with | Cell.num q => acc + q | _ => acc) 0

/-- Count of non-null cells (pandas `count`). -/
def countNonNull (l : List Cell) : ℕ :=
  (l.filter (fun c => decide (¬ c = Cell.null))).length

/-- First non-null cell (pandas groupby `first` skips NA elements). -/
def firstNonNull (l : List Cell) : Cell :=
  match l.find? (fun c => decide (¬ c = Cell.null)) with
  | some c => c
  | none => Cell.null

/-! ## `app/processing/cleaner.py` -/

/-- The character class `[a-z0-9]` of the normalization regex
(`97..122` are `a..z`, `48..57` are `0..9`). -/
def isAlnumLower (c : Char) : Bool :=
  (97 ≤ c.toNat ∧ c.toNat ≤ 122) ∨ (48 ≤ c.toNat ∧ c.toNat ≤ 57)

/-- Collapse every run of consecutive underscores to a single underscore.
Mapping each `[^a-z0-9]` character to an underscore and collapsing
underscore runs gives exactly `re.sub(r"[^a-z0-9]+", "_", s)`: an
underscore is itself outside `[a-z0-9]`, so underscore runs after the
pointwise map coincide with the maximal runs the regex replaces. -/
def squashUnd : List Char → List Char
  | [] => []
  | [c] => [c]
  | a :: b :: rest =>
      if a = '_' ∧ b = '_' then squashUnd (b :: rest)
      else a :: squashUnd (b :: rest)

/-- Python `str.strip("_")`. -/
def stripUnd (l : List Char) : List Char :=
  (l.dropWhile (fun c => decide (c = '_'))).rdropWhile (fun c => decide (c = '_'))

/-- One column name through
`re.sub(r"[^a-z0-9]+", "_", col.strip().lower()).strip("_")`. -/
def normalizeName (s : String) : String :=
  ⟨stripUnd (squashUnd ((pyLower (pyStrip s)).data.map
    (fun c => if isAlnumLower c then c else '_')))⟩

/-- Function `normalize_columns`: lowercase, strip, snake_case all column names. -/
def normalize_columns (t : Table) : Table :=
  { cols := t.cols.map normalizeName,
    rows := t.rows.map (fun r => r.map (fun p => (normalizeName p.1, p.2))) }

/-! ## `app/processing/transformer.py` -/

def BUDGET_COLUMN_MAP : List (String × String) :=
  [("exer", "year"),
   ("reg", "region_code"),
   ("lbudg", "region_name"),
   ("rec_totales_f", "operating_revenue"),
   ("dep_totales_f", "operating_expenditure"),
   ("rec_totales_i", "investment_revenue"),
   ("dep_totales_i", "investment_expenditure"),
   ("encours_de_dette", "debt")]

/-- Model of `re.sub(r"^REG\s+", "", s)`: drop a leading `REG` followed by (a
maximal run of) whitespace. -/
def stripRegTag (s : String) : String :=
  match s.data with
  | 'R' :: 'E' :: 'G' :: c :: rest =>
      if isPySpace c then ⟨(c :: rest).dropWhile isPySpace⟩ else s
  | _ => s

/-- Model of `df["region_name"].str.replace(r"^REG\s+", "", regex=True).str.strip()
.str.title()`; the `.str` accessor yields NaN on non-string cells. -/
def cleanRegionName (c : Cell) : Cell :=
  match c with
  | Cell.str s => Cell.str (pyTitle (pyStrip (stripRegTag s)))
  | _ => Cell.null

def budgetNumericCols : List String :=
  ["operating_revenue", "operating_expenditure",
   "investment_revenue", "investment_expenditure", "debt"]

def budgetKeepCols : List String :=
  ["year", "region_code", "region_name", "total_revenue",
   "total_expenditure", "operating_revenue", "operating_expenditure",
   "investment_revenue", "investment_expenditure", "debt"]

/-- Function `transform_region_budgets` (`transformer.py:30-93`). The `raise
KeyError` paths are modelled by `Except.error`. -/
def transform_region_budgets (df : Table) : Except String Table :=
  let rename := BUDGET_COLUMN_MAP.filter (fun p => decide (p.1 ∈ df.cols))
  let t := df.rename rename
  if ¬ "year" ∈ t.cols then
    Except.error "Missing required column after rename: year"
  else if ¬ "region_code" ∈ t.cols then
    Except.error "Missing required column after rename: region_code"
  else
    let t := t.mapCol "year" toNumeric
    let t := t.mapCol "region_code"
      (fun c => Cell.str (zfill3 (pyStrip (cellToStr c))))
    let t := budgetNumericCols.foldl
      (fun t c => if c ∈ t.cols then t.mapCol c (fun x => fillZero (toNumeric x)) else t) t
    let t :=
      if "operating_revenue" ∈ t.cols ∧ "investment_revenue" ∈ t.cols then
        t.setCol "total_revenue"
          (fun r => addCell (r.get "operating_revenue") (r.get "investment_revenue"))
      else t
    let t :=
      if "operating_expenditure" ∈ t.cols ∧ "investment_expenditure" ∈ t.cols then
        t.setCol "total_expenditure"
          (fun r => addCell (r.get "operating_expenditure") (r.get "investment_expenditure"))
      else t
    let t :=
      if "region_name" ∈ t.cols then t.mapCol "region_name" cleanRegionName else t
    let t := t.select (budgetKeepCols.filter (fun c => decide (c ∈ t.cols)))
    let t := t.dropna ["year", "region_code"]
    let t := t.mapCol "year" castInt
    Except.ok t

/-- Helper `_find_col`: first candidate present among the columns. -/
def find_col (t : Table) (candidates : List String) : Option String :=
  candidates.find? (fun c => decide (c ∈ t.cols))

/-- Function `aggregate_communes_by_region` (`transformer.py:101-134`). Pandas
`groupby` sorts the group keys ascending; `sum`/`count`/`first` skip NA. -/
def aggregate_communes_by_region (df : Table) : Except String Table :=
  let code? := find_col df ["reg_code", "code_region", "region_code"]
  let name? := find_col df ["reg_nom", "nom_region", "region_name"]
  let pop? := find_col df ["population", "pop"]
  match code?, pop? with
  | some code_col, some pop_col =>
      let t := df.mapCol pop_col (fun c => castInt (fillZero (toNumeric c)))
      let t := t.mapCol code_col (fun c => Cell.str (pyStrip (cellToStr c)))
      let keys := ((t.rows.map (fun r => cellToStr (r.get code_col))).dedup).insertionSort (· ≤ ·)
      let agg : Table :=
        { cols := [code_col, "total_population", "num_communes", "region_name"],
          rows := keys.map (fun k =>
            let grp := t.rows.filter (fun r => decide (cellToStr (r.get code_col) = k))
            [(code_col, Cell.str k),
             ("total_population", Cell.num (sumCells (grp.map (fun r => r.get pop_col)))),
             ("num_communes", Cell.num (countNonNull (grp.map (fun r => r.get pop_col)))),
             ("region_name",
              match name? with
              | some nc => firstNonNull (grp.map (fun r => r.get nc))
              | none => firstNonNull (grp.map (fun r => r.get code_col)))]) }
      Except.ok (agg.rename [(code_col, "region_code")])
  | _, _ =>
      Except.error "Cannot find region code or population columns."

/-- The kind of exception a transformer raises. `missingColumn` is the
`KeyError` raised explicitly by the missing-column guards
(`transformer.py:44` and `transformer.py:115`) — the spec's
MissingColumnError; `typeError` and `attributeError` are raised by pandas
itself when a column access meets the wrong shape or dtype. -/
inductive PdError
  | missingColumn (col : String)
  | typeError
  | attributeError
deriving DecidableEq, Repr

/-- Number of occurrences of a label in a schema. `df[c]` returns a
DataFrame instead of a Series when `c` is a duplicated label, which makes
`pd.to_numeric` raise `TypeError` and the `.str` accessor raise
`AttributeError`. -/
def countCol (t : Table) (c : String) : ℕ :=
  t.cols.countP (fun x => decide (x = c))

/-- Whether a column holds no string at all (every cell is a number or
NaN). A nonempty pandas column of numbers and NaN has a numeric dtype, on
which the `.str` accessor raises `AttributeError`; a single string cell
makes the dtype `object`, on which `.str` works elementwise. -/
def colAllNonStr (t : Table) (c : String) : Bool :=
  t.rows.all (fun r => match Row.get r c with
    | Cell.str _ => false
    | _ => true)

/-- The exception `transform_region_budgets` (`transformer.py:30-93`)
raises, if any. It follows the source order: the missing-column guards
(lines 41-44), then `pd.to_numeric(df["year"])` (line 47, `TypeError`
when renaming duplicated the "year" label), then
`df["region_code"].astype(str).str` (line 48, `AttributeError` on a
DataFrame), then `pd.to_numeric` on the first duplicated numeric column
(lines 57-59), and finally `.str.replace` on the region-name column
(line 70, `AttributeError` when that label is duplicated or the column is
nonempty and numeric-dtyped). The remaining steps (totals, `df[keep]`,
`dropna`, `astype(int)` on the NaN-free year column) raise nothing. -/
def transform_region_budgets_raise (df : Table) : Option PdError :=
  let t := df.rename (BUDGET_COLUMN_MAP.filter (fun p => decide (p.1 ∈ df.cols)))
  if ¬ "year" ∈ t.cols then
    some (PdError.missingColumn "year")
  else if ¬ "region_code" ∈ t.cols then
    some (PdError.missingColumn "region_code")
  else if 1 < countCol t "year" then
    some PdError.typeError
  else if 1 < countCol t "region_code" then
    some PdError.attributeError
  else if budgetNumericCols.any (fun c => decide (1 < countCol t c)) then
    some PdError.typeError
  else if "region_name" ∈ t.cols ∧
      (1 < countCol t "region_name" ∨
        (¬ t.rows = [] ∧ colAllNonStr t "region_name" = true)) then
    some PdError.attributeError
  else
    none

/-- The exception the column-resolution and coercion steps of
`aggregate_communes_by_region` (`transformer.py:107-120`) raise, if any:
the resolvability guard (lines 114-117, the missing-column `KeyError`),
then `pd.to_numeric(df[pop_col])` (line 119, `TypeError` when the
resolved population label is duplicated), then
`df[code_col].astype(str).str` (line 120, `AttributeError` on a
DataFrame). The later aggregation steps are treated as normal. -/
def aggregate_communes_by_region_raise (df : Table) : Option PdError :=
  let code? := find_col df ["reg_code", "code_region", "region_code"]
  let pop? := find_col df ["population", "pop"]
  match code?, pop? with
  | some code_col, some pop_col =>
      if 1 < countCol df pop_col then
        some PdError.typeError
      else if 1 < countCol df code_col then
        some PdError.attributeError
      else
        none
  | _, _ =>
      some (PdError.missingColumn "region code / population")

/-- Strip of the join key used by `compute_region_stats`:
`astype(str).str.strip().str.lstrip("0")`. -/
def stripJoinKey (c : Cell) : Cell :=
  Cell.str (lstripZeros (pyStrip (cellToStr c)))

def statsKeepCols : List String :=
  ["year", "region_code", "region_name", "total_population",
   "total_revenue", "total_expenditure", "revenue_per_capita",
   "expenditure_per_capita", "num_communes"]

/-- Function `compute_region_stats` (`transformer.py:142-191`). Missing-column
accesses (`df[...]` on an absent label) are modelled by `Except.error`. -/
def compute_region_stats (budgets communes_agg : Table) : Except String Table :=
  if ¬ "region_code" ∈ budgets.cols then
    Except.error "KeyError: region_code"
  else if ¬ "region_code" ∈ communes_agg.cols then
    Except.error "KeyError: region_code"
  else if ¬ ("total_population" ∈ communes_agg.cols ∧ "num_communes" ∈ communes_agg.cols) then
    Except.error "KeyError: total_population / num_communes"
  else
    let b := budgets.mapCol "region_code" stripJoinKey
    let ca := communes_agg.mapCol "region_code" stripJoinKey
    let caSel := ca.select ["region_code", "total_population", "num_communes"]
    let mergedRows := b.rows.flatMap (fun rb =>
      (caSel.rows.filter
        (fun rc => decide (rc.get "region_code" = rb.get "region_code"))).map
        (fun rc =>
          (rb.set "total_population" (rc.get "total_population")).set
            "num_communes" (rc.get "num_communes")))
    let merged : Table := ⟨budgets.cols ++ ["total_population", "num_communes"], mergedRows⟩
    if merged.rows.isEmpty then
      Except.ok merged
    else if ¬ "total_revenue" ∈ merged.cols then
      Except.error "KeyError: total_revenue"
    else if ¬ "total_expenditure" ∈ merged.cols then
      Except.error "KeyError: total_expenditure"
    else
      let m := merged.setCol "revenue_per_capita"
        (fun r => round2Cell (divCell (r.get "total_revenue")
          (replaceZeroOne (r.get "total_population"))))
      let m := m.setCol "expenditure_per_capita"
        (fun r => round2Cell (divCell (r.get "total_expenditure")
          (replaceZeroOne (r.get "total_population"))))
      Except.ok (m.select (statsKeepCols.filter (fun c => decide (c ∈ m.cols))))

/-! ### `transform_employment` -/

def EMPLOYMENT_COLUMN_MAP : List (String × String) :=
  [("region", "region_name"),
   ("code_region", "region_code"),
   ("dernier_jour_du_mois", "month_date"),
   ("masse_salariale_brute", "salary_mass"),
   ("glissement_annuel_masse_salariale", "salary_yoy_change"),
   ("assiette_chomage_partiel", "partial_unemployment_base"),
   ("part_de_l_assiette_chomage_partiel", "partial_unemployment_share")]

/-- Split a character list at each dash (the list-level counterpart of
`str.split("-")`). -/
def splitDash : List Char → List (List Char)
  | [] => [[]]
  | c :: rest =>
      let r := splitDash rest
      if c = '-' then [] :: r
      else
        match r with
        | h :: t => (c :: h) :: t
        | [] => [[c]]

/-- Model of `pd.to_datetime(errors="coerce")` on one cell, restricted to the
ISO `YYYY-MM-DD` shape the dataset uses; anything else coerces to NaT
(`none`). Returns (year, month). -/
def parseDate (c : Cell) : Option (ℕ × ℕ) :=
  match c with
  | Cell.str s =>
      match splitDash (pyStrip s).data with
      | [y, m, d] =>
          if (y.all Char.isDigit = true ∧ y.length = 4 ∧
              m.all Char.isDigit = true ∧ ¬ m.isEmpty = true ∧
              d.all Char.isDigit = true ∧ ¬ d.isEmpty = true ∧
              1 ≤ digitsToNat m ∧ digitsToNat m ≤ 12 ∧
              1 ≤ digitsToNat d ∧ digitsToNat d ≤ 31) then
            some (digitsToNat y, digitsToNat m)
          else none
      | _ => none
  | _ => none

/-- Model of `strftime("%Y-%m")`: zero-padded 4-digit year, 2-digit month. -/
def fmtYM (y m : ℕ) : String :=
  (if y < 10 then "000" else if y < 100 then "00" else if y < 1000 then "0" else "")
    ++ toString y ++ "-" ++ (if m < 10 then "0" else "") ++ toString m

def employmentNumericCols : List String :=
  ["salary_mass", "salary_yoy_change",
   "partial_unemployment_base", "partial_unemployment_share"]

def employmentKeepCols : List String :=
  ["region_code", "region_name", "month", "salary_mass",
   "salary_yoy_change", "partial_unemployment_base",
   "partial_unemployment_share"]

/-- Tail of `transform_employment` after the month derivation: numeric
coercion, region-code stringify/strip, column selection, month dropna. -/
def finishEmployment (t : Table) : Table :=
  let t := employmentNumericCols.foldl
    (fun t c => if c ∈ t.cols then t.mapCol c toNumeric else t) t
  let t :=
    if "region_code" ∈ t.cols then
      t.mapCol "region_code" (fun c => Cell.str (pyStrip (cellToStr c)))
    else t
  let t := t.select (employmentKeepCols.filter (fun c => decide (c ∈ t.cols)))
  t.dropna ["month"]

/-- Alias-resolution stage of `transform_employment`
(`transformer.py:218-228`): the fixed alias rename, then the best-effort
region code/name renames. -/
def employmentAliased (df : Table) : Table :=
  let rename := EMPLOYMENT_COLUMN_MAP.filter (fun p => decide (p.1 ∈ df.cols))
  let t := df.rename rename
  let code? := find_col t ["region_code", "code_region"]
  let name? := find_col t ["region_name", "region", "nom_region"]
  let t1 := match code? with
    | some cc => if cc ≠ "region_code" then t.rename [(cc, "region_code")] else t
    | none => t
  match name? with
  | some nc => if nc ≠ "region_name" then t1.rename [(nc, "region_name")] else t1
  | none => t1

/-- Function `transform_employment` (`transformer.py:209-267`). Never raises: the
no-temporal-key case returns `pd.DataFrame()` (an empty, columnless
table). -/
def transform_employment (df : Table) : Table :=
  let t := employmentAliased df
  let date? := find_col t ["month_date", "dernier_jour_du_mois"]
  match date? with
  | none =>
      if "month" ∈ t.cols then
        finishEmployment t
      else
        ⟨[], []⟩
  | some dc =>
      finishEmployment (t.setCol "month" (fun r =>
        match parseDate (r.get dc) with
        | some ym => Cell.str (fmtYM ym.1 ym.2)
        | none => Cell.null))

/-! ### Observation helpers -/

/-- Rows of a transformation result (empty for the error case). -/
def rowsOf (e : Except String Table) : List Row :=
  match e with
  | Except.ok t => t.rows
  | Except.error _ => []

/-- Whether a transformation raised. -/
def isErr (e : Except String Table) : Bool :=
  match e with
  | Except.ok _ => false
  | Except.error _ => true

/-- The join key of `compute_region_stats` as a string. -/
def stripKeyStr (c : Cell) : String :=
  lstripZeros (pyStrip (cellToStr c))

/-- The integer a population cell contributes after
`pd.to_numeric(...).fillna(0).astype(int)`. -/
def popValue (c : Cell) : ℤ :=
  match fillZero (toNumeric c) with
  | Cell.num q => truncQ q
  | _ => 0

/-- The column list of the budget table after the alias renaming step. -/
def renamedBudgetCols (df : Table) : List String :=
  (df.rename (BUDGET_COLUMN_MAP.filter (fun p => decide (p.1 ∈ df.cols)))).cols

/-! ### Concrete tables for counterexamples and witnesses -/

/-- Budget input with two identical rows for the key (2023, "011"). -/
def dupBudget : Table :=
  ⟨["exer", "reg"],
   [[("exer", Cell.num 2023), ("reg", Cell.str "011")],
    [("exer", Cell.num 2023), ("reg", Cell.str "011")]]⟩

/-- Budget input carrying both `exer` and `year`: renaming maps `exer` to
`year`, so the renamed schema holds two "year" labels. -/
def dupYearBudget : Table :=
  ⟨["exer", "year", "reg"],
   [[("exer", Cell.num 2023), ("year", Cell.num 2022), ("reg", Cell.str "011")]]⟩

/-- Budget input whose `lbudg` (renamed `region_name`) column is entirely
numeric, giving it a numeric dtype. -/
def numericNameBudget : Table :=
  ⟨["exer", "reg", "lbudg"],
   [[("exer", Cell.num 2023), ("reg", Cell.str "011"), ("lbudg", Cell.num 5)]]⟩

/-- Communes input with a duplicated `population` label. -/
def dupPopCommunes : Table :=
  ⟨["reg_code", "population", "population"],
   [[("reg_code", Cell.str "1"), ("population", Cell.num 1),
     ("population", Cell.num 2)]]⟩

/-- One-row budget table whose totals are 1/8 (= 0.125). -/
def eighthBudget : Table :=
  ⟨["year", "region_code", "region_name", "total_revenue", "total_expenditure"],
   [[("year", Cell.num 2023), ("region_code", Cell.str "1"),
     ("region_name", Cell.str "T"),
     ("total_revenue", Cell.num (1/8)), ("total_expenditure", Cell.num (1/8))]]⟩

/-- Aggregate table with a zero-population region "1". -/
def zeroPopAgg : Table :=
  ⟨["region_code", "total_population", "num_communes"],
   [[("region_code", Cell.str "1"), ("total_population", Cell.num 0),
     ("num_communes", Cell.num 0)]]⟩

/-- Communes input whose single population value parses to -5. -/
def negPopCommunes : Table :=
  ⟨["reg_code", "population"],
   [[("reg_code", Cell.str "1"), ("population", Cell.str "-5")]]⟩

/-- Communes input where the first name seen for region "1" is null and a
later row carries the name "X". -/
def nullFirstName : Table :=
  ⟨["reg_code", "reg_nom", "population"],
   [[("reg_code", Cell.str "1"), ("reg_nom", Cell.null), ("population", Cell.num 1)],
    [("reg_code", Cell.str "1"), ("reg_nom", Cell.str "X"), ("population", Cell.num 2)]]⟩

/-- Communes input whose region codes first appear out of sorted order. -/
def unsortedCommunes : Table :=
  ⟨["reg_code", "population"],
   [[("reg_code", Cell.str "2"), ("population", Cell.num 3)],
    [("reg_code", Cell.str "1"), ("population", Cell.num 10)]]⟩

/-- Budget table with code "999", disjoint from `oneAgg` after stripping. -/
def disjointBudget : Table :=
  ⟨["year", "region_code", "region_name", "total_revenue", "total_expenditure"],
   [[("year", Cell.num 2023), ("region_code", Cell.str "999"),
     ("region_name", Cell.str "Nowhere"),
     ("total_revenue", Cell.num 100), ("total_expenditure", Cell.num 90)]]⟩

/-- Aggregate table with the single region "1". -/
def oneAgg : Table :=
  ⟨["region_code", "total_population", "num_communes"],
   [[("region_code", Cell.str "1"), ("total_population", Cell.num 1000),
     ("num_communes", Cell.num 5)]]⟩

/-- The spec scenario budget row (C8). -/
def scenarioBudget : Table :=
  ⟨["exer", "reg", "lbudg", "rec_totales_f", "dep_totales_f",
    "rec_totales_i", "dep_totales_i", "encours_de_dette"],
   [[("exer", Cell.num 2023), ("reg", Cell.str "011"),
     ("lbudg", Cell.str "REG ILE-DE-FRANCE"),
     ("rec_totales_f", Cell.num 5000000), ("dep_totales_f", Cell.num 4500000),
     ("rec_totales_i", Cell.num 1000000), ("dep_totales_i", Cell.num 800000),
     ("encours_de_dette", Cell.num 2000000)]]⟩

/-- Employment input with one parseable and one unparseable date. -/
def employmentSample : Table :=
  ⟨["code_region", "region", "dernier_jour_du_mois", "masse_salariale_brute"],
   [[("code_region", Cell.str "11"), ("region", Cell.str "IDF"),
     ("dernier_jour_du_mois", Cell.str "2023-01-31"),
     ("masse_salariale_brute", Cell.num 5)],
    [("code_region", Cell.str "11"), ("region", Cell.str "IDF"),
     ("dernier_jour_du_mois", Cell.str "garbage"),
     ("masse_salariale_brute", Cell.num 6)]]⟩

/-- The single surviving output row of `transform_employment` on
`employmentSample` (the unparseable-date row is dropped). -/
def employmentOutRow : Row :=
  [("region_code", Cell.str "11"), ("region_name", Cell.str "IDF"),
   ("month", Cell.str (fmtYM 2023 1)), ("salary_mass", Cell.num 5)]

/-- The aggregate of `unsortedCommunes` (its region codes sorted). -/
def aggUnsortedOut : Table :=
  ⟨["region_code", "total_population", "num_communes", "region_name"],
   [[("region_code", Cell.str "1"), ("total_population", Cell.num 10),
     ("num_communes", Cell.num 1), ("region_name", Cell.str "1")],
    [("region_code", Cell.str "2"), ("total_population", Cell.num 3),
     ("num_communes", Cell.num 1), ("region_name", Cell.str "2")]]⟩

/-- The transformed `scenarioBudget` table (transcribed output). -/
def scenarioOutRow : Row :=
  [("region_code", Cell.str "011"), ("region_name", Cell.str "Ile-De-France"),
   ("total_revenue", Cell.num 6000000), ("total_expenditure", Cell.num 5300000),
   ("operating_revenue", Cell.num 5000000), ("operating_expenditure", Cell.num 4500000),
   ("investment_revenue", Cell.num 1000000), ("investment_expenditure", Cell.num 800000),
   ("debt", Cell.num 2000000), ("year", Cell.num 2023)]

def scenarioOut : Table :=
  ⟨["year", "region_code", "region_name", "total_revenue", "total_expenditure",
    "operating_revenue", "operating_expenditure", "investment_revenue",
    "investment_expenditure", "debt"],
   [scenarioOutRow]⟩

/-- The single output row of `compute_region_stats eighthBudget zeroPopAgg`. -/
def statsZeroRow : Row :=
  [("year", Cell.num 2023), ("region_code", Cell.str "1"), ("region_name", Cell.str "T"),
   ("total_population", Cell.num 0), ("total_revenue", Cell.num (1/8)),
   ("total_expenditure", Cell.num (1/8)),
   ("revenue_per_capita", Cell.num (round2 (1/8))),
   ("expenditure_per_capita", Cell.num (round2 (1/8))),
   ("num_communes", Cell.num 0)]

def statsZeroOut : Table :=
  ⟨["year", "region_code", "region_name", "total_population", "total_revenue",
    "total_expenditure", "revenue_per_capita", "expenditure_per_capita", "num_communes"],
   [statsZeroRow]⟩

/-- The aggregate of `nullFirstName` (one region, name "X"). -/
def aggNullRow : Row :=
  [("region_code", Cell.str "1"), ("total_population", Cell.num 3),
   ("num_communes", Cell.num 2), ("region_name", Cell.str "X")]

def aggNullOut : Table :=
  ⟨["region_code", "total_population", "num_communes", "region_name"], [aggNullRow]⟩

/-- Employment input with neither a date column nor a month column. -/
def noTemporalEmployment : Table :=
  ⟨["region", "masse_salariale_brute"],
   [[("region", Cell.str "IDF"), ("masse_salariale_brute", Cell.num 5)]]⟩

/-! ## Lemmas: dropWhile / rdropWhile -/

theorem dropWhile_eq_self_of_all {α} {p : α → Bool} {l : List α}
    (h : ∀ c ∈ l, p c = false) : l.dropWhile p = l := by
  cases l with
  | nil => rfl
  | cons a as =>
      rw [List.dropWhile_cons, if_neg (by simp [h a (List.mem_cons_self a as)])]

theorem rdropWhile_eq_self_of_all {α} {p : α → Bool} {l : List α}
    (h : ∀ c ∈ l, p c = false) : l.rdropWhile p = l := by
  unfold List.rdropWhile
  rw [dropWhile_eq_self_of_all (fun c hc => h c (List.mem_reverse.mp hc)),
    List.reverse_reverse]

theorem head?_dropWhile_false {α} {p : α → Bool} :
    ∀ {l : List α} {x : α}, (l.dropWhile p).head? = some x → p x = false := by
  intro l
  induction l with
  | nil => intro x h; simp [List.dropWhile] at h
  | cons a as ih =>
      intro x h
      rw [List.dropWhile_cons] at h
      by_cases hpa : p a = true
      · rw [if_pos hpa] at h; exact ih h
      · rw [if_neg hpa] at h
        simp only [List.head?_cons, Option.some.injEq] at h
        subst h
        exact Bool.eq_false_iff.mpr hpa

theorem dropWhile_eq_self_of_head {α} {p : α → Bool} {l : List α}
    (h : ∀ x, l.head? = some x → p x = false) : l.dropWhile p = l := by
  cases l with
  | nil => rfl
  | cons a as => rw [List.dropWhile_cons, if_neg (by simp [h a rfl])]

/-! ## Lemmas: underscore squashing and stripping (claim C9) -/

theorem squashUnd_subset : ∀ (l : List Char), ∀ c ∈ squashUnd l, c ∈ l := by
  intro l
  induction l with
  | nil => intro c hc; simp [squashUnd] at hc
  | cons a as ih =>
      cases as with
      | nil => intro c hc; simpa [squashUnd] using hc
      | cons b rest =>
          intro c hc
          simp only [squashUnd] at hc
          by_cases hab : a = '_' ∧ b = '_'
          · rw [if_pos hab] at hc
            exact List.mem_cons_of_mem a (ih c hc)
          · rw [if_neg hab] at hc
            rcases List.mem_cons.mp hc with rfl | hc
            · exact List.mem_cons_self _ _
            · exact List.mem_cons_of_mem a (ih c hc)

theorem squashUnd_head_underscore :
    ∀ (l : List Char) (x : Char),
      (squashUnd l).head? = some x → x = '_' → l.head? = some '_' := by
  intro l
  induction l with
  | nil => intro x h _; simp [squashUnd] at h
  | cons a as ih =>
      cases as with
      | nil =>
          intro x h hx
          simp only [squashUnd, List.head?_cons, Option.some.injEq] at h
          subst h; subst hx; rfl
      | cons b rest =>
          intro x h hx
          simp only [squashUnd] at h
          by_cases hab : a = '_' ∧ b = '_'
          · rw [if_pos hab] at h
            simp [hab.1]
          · rw [if_neg hab] at h
            simp only [List.head?_cons, Option.some.injEq] at h
            subst h
            simp [hx]

theorem squashUnd_chain :
    ∀ l : List Char, (squashUnd l).Chain' (fun a b => ¬(a = '_' ∧ b = '_')) := by
  intro l
  induction l with
  | nil => simp [squashUnd]
  | cons a as ih =>
      cases as with
      | nil => simp [squashUnd]
      | cons b rest =>
          simp only [squashUnd]
          by_cases hab : a = '_' ∧ b = '_'
          · rw [if_pos hab]; exact ih
          · rw [if_neg hab]
            rw [List.chain'_cons']
            refine ⟨?_, ih⟩
            intro y hy
            rintro ⟨ha, hy'⟩
            have hb := squashUnd_head_underscore (b :: rest) y (Option.mem_def.mp hy) hy'
            simp only [List.head?_cons, Option.some.injEq] at hb
            exact hab ⟨ha, hb⟩

theorem squashUnd_eq_self :
    ∀ {l : List Char}, l.Chain' (fun a b => ¬(a = '_' ∧ b = '_')) → squashUnd l = l := by
  intro l
  induction l with
  | nil => intro _; rfl
  | cons a as ih =>
      cases as with
      | nil => intro _; simp [squashUnd]
      | cons b rest =>
          intro h
          rw [List.chain'_cons] at h
          simp only [squashUnd]
          rw [if_neg h.1, ih h.2]

theorem stripUnd_subset : ∀ {l : List Char}, ∀ c ∈ stripUnd l, c ∈ l := by
  intro l c hc
  unfold stripUnd at hc
  have h1 : c ∈ l.dropWhile (fun c => decide (c = '_')) :=
    ( List.rdropWhile_prefix _ _).sublist.subset hc
  exact ( List.dropWhile_suffix _).sublist.subset h1

theorem stripUnd_chain {l : List Char}
    (h : l.Chain' (fun a b => ¬(a = '_' ∧ b = '_'))) :
    (stripUnd l).Chain' (fun a b => ¬(a = '_' ∧ b = '_')) :=
  List.Chain'.prefix (List.Chain'.suffix h ( List.dropWhile_suffix _))
    ( List.rdropWhile_prefix _ _)

theorem stripUnd_idem (l : List Char) : stripUnd (stripUnd l) = stripUnd l := by
  unfold stripUnd
  have h1 : ((l.dropWhile (fun c => decide (c = '_'))).rdropWhile
      (fun c => decide (c = '_'))).dropWhile (fun c => decide (c = '_')) =
      (l.dropWhile (fun c => decide (c = '_'))).rdropWhile (fun c => decide (c = '_')) := by
    apply dropWhile_eq_self_of_head
    intro x hx
    obtain ⟨t, ht⟩ :=
       List.rdropWhile_prefix (fun c => decide (c = '_'))
        (l.dropWhile (fun c => decide (c = '_')))
    cases hpre : (l.dropWhile (fun c => decide (c = '_'))).rdropWhile
        (fun c => decide (c = '_')) with
    | nil => rw [hpre] at hx; simp at hx
    | cons a pre =>
        rw [hpre] at hx ht
        simp only [List.head?_cons, Option.some.injEq] at hx
        subst hx
        have hh : (l.dropWhile (fun c => decide (c = '_'))).head? = some a := by
          rw [← ht]; rfl
        exact head?_dropWhile_false (p := fun c => decide (c = '_')) hh
  rw [h1, List.rdropWhile_idempotent]

/-! ## Lemmas: the normalized character classes -/

theorem not_space_of_norm {c : Char} (h : isAlnumLower c = true ∨ c = '_') :
    isPySpace c = false := by
  rcases h with h | rfl
  · simp only [isAlnumLower, decide_eq_true_eq] at h
    simp only [isPySpace, decide_eq_false_iff_not]
    rcases h with ⟨h1, h2⟩ | ⟨h1, h2⟩ <;> omega
  · decide

theorem lowerChar_eq_self {c : Char} (h : isAlnumLower c = true ∨ c = '_') :
    lowerChar c = c := by
  rcases h with h | rfl
  · simp only [isAlnumLower, decide_eq_true_eq] at h
    have hno : ¬(65 ≤ c.toNat ∧ c.toNat ≤ 90) := by
      rcases h with ⟨h1, h2⟩ | ⟨h1, h2⟩ <;> omega
    simp [lowerChar, hno]
  · decide

theorem normalizeName_mem (s : String) :
    ∀ c ∈ (normalizeName s).data, isAlnumLower c = true ∨ c = '_' := by
  intro c hc
  simp only [normalizeName] at hc
  have h1 := stripUnd_subset _ hc
  have h2 := squashUnd_subset _ _ h1
  rcases List.mem_map.mp h2 with ⟨a, _, rfl⟩
  by_cases hg : isAlnumLower a = true
  · rw [if_pos hg]; exact Or.inl hg
  · rw [if_neg hg]; exact Or.inr rfl

theorem normalizeName_idem (s : String) :
    normalizeName (normalizeName s) = normalizeName s := by
  have hmem := normalizeName_mem s
  have hstrip : pyStrip (normalizeName s) = normalizeName s := by
    unfold pyStrip
    rw [dropWhile_eq_self_of_all (fun c hc => not_space_of_norm (hmem c hc)),
      rdropWhile_eq_self_of_all (fun c hc => not_space_of_norm (hmem c hc))]
  have hlower : pyLower (normalizeName s) = normalizeName s := by
    unfold pyLower
    have h := List.map_congr_left (l := (normalizeName s).data)
      (f := lowerChar) (g := id) (fun a ha => lowerChar_eq_self (hmem a ha))
    rw [h, List.map_id]
  have hmap : (normalizeName s).data.map (fun c => if isAlnumLower c then c else '_') =
      (normalizeName s).data := by
    have := List.map_congr_left (l := (normalizeName s).data)
      (f := fun c => if isAlnumLower c then c else '_') (g := id) ?_
    · rw [this, List.map_id]
    · intro a ha
      rcases hmem a ha with hg | rfl
      · simp [hg]
      · simp
  have hchain : (normalizeName s).data.Chain' (fun a b => ¬(a = '_' ∧ b = '_')) := by
    simp only [normalizeName]
    exact stripUnd_chain (squashUnd_chain _)
  have hsu : stripUnd (normalizeName s).data = (normalizeName s).data := by
    simp only [normalizeName]
    exact stripUnd_idem _
  show (⟨stripUnd (squashUnd ((pyLower (pyStrip (normalizeName s))).data.map
    (fun c => if isAlnumLower c then c else '_')))⟩ : String) = normalizeName s
  rw [hstrip, hlower, hmap, squashUnd_eq_self hchain, hsu]

/-! ## Lemmas: row cell access -/

theorem find?_congr_mem {α} {p q : α → Bool} :
    ∀ {l : List α}, (∀ x ∈ l, p x = q x) → l.find? p = l.find? q := by
  intro l
  induction l with
  | nil => intro _; rfl
  | cons a as ih =>
      intro h
      by_cases hpa : p a = true
      · rw [List.find?_cons_of_pos _ hpa,
          List.find?_cons_of_pos _ ((h a (List.mem_cons_self a as)) ▸ hpa)]
      · rw [List.find?_cons_of_neg _ hpa,
          List.find?_cons_of_neg _ ((h a (List.mem_cons_self a as)) ▸ hpa),
          ih (fun x hx => h x (List.mem_cons_of_mem a hx))]

theorem Row.get_cons_same (c : String) (v : Cell) (r : Row) :
    Row.get ((c, v) :: r) c = v := by
  unfold Row.get
  rw [List.find?_cons_of_pos _ (by simp)]

theorem Row.get_cons_ne (k c : String) (v : Cell) (r : Row) (h : ¬ k = c) :
    Row.get ((k, v) :: r) c = Row.get r c := by
  unfold Row.get
  rw [List.find?_cons_of_neg _ (by simp [h])]

theorem Row.get_set_same (r : Row) (c : String) (v : Cell) :
    Row.get (Row.set r c v) c = v := by
  unfold Row.set Row.get
  rw [List.find?_append]
  have h1 : (r.filter (fun p => decide (¬ p.1 = c))).find?
      (fun p => decide (p.1 = c)) = none := by
    rw [List.find?_filter]
    apply List.find?_eq_none.mpr
    intro x _
    by_cases hx : x.1 = c <;> simp [hx]
  rw [h1]
  simp

theorem Row.get_set_ne (r : Row) (c c' : String) (v : Cell) (h : ¬ c' = c) :
    Row.get (Row.set r c v) c' = Row.get r c' := by
  unfold Row.set Row.get
  rw [List.find?_append]
  have h1 : (r.filter (fun p => decide (¬ p.1 = c))).find?
      (fun p => decide (p.1 = c')) = r.find? (fun p => decide (p.1 = c')) := by
    rw [List.find?_filter]
    apply find?_congr_mem
    intro x _
    by_cases hx : x.1 = c' <;> simp [hx, h]
  rw [h1]
  have h2 : ([((c, v))] : Row).find? (fun p => decide (p.1 = c')) = none := by
    simp [show ¬ c = c' from fun hh => h hh.symm]
  cases hf : r.find? (fun p => decide (p.1 = c')) <;> simp [hf, h2]

theorem Row.get_ofSelect (r : Row) (keep : List String) (c : String) :
    Row.get (keep.map (fun c' => (c', Row.get r c'))) c =
      if c ∈ keep then Row.get r c else Cell.null := by
  induction keep with
  | nil => simp [Row.get]
  | cons k ks ih =>
      simp only [List.map_cons]
      by_cases hk : k = c
      · subst hk
        rw [Row.get_cons_same, if_pos (List.mem_cons_self _ _)]
      · rw [Row.get_cons_ne _ _ _ _ hk, ih]
        by_cases hc : c ∈ ks
        · rw [if_pos hc, if_pos (List.mem_cons_of_mem _ hc)]
        · rw [if_neg hc, if_neg (by
            simp only [List.mem_cons]
            rintro (rfl | hmem)
            exacts [hk rfl, hc hmem])]

/-! ## Claim theorems -/

/-- C9: the Cleaner's column-name normalization is idempotent — for every
table, applying `normalize_columns` twice yields exactly the same column
names as applying it once. -/
theorem normalize_columns_idempotent (t : Table) :
    (normalize_columns (normalize_columns t)).cols = (normalize_columns t).cols := by
  simp only [normalize_columns]
  rw [List.map_map]
  exact List.map_congr_left (fun a _ => normalizeName_idem a)

/-- The simplified `Except` models error exactly on the missing-column
conditions: `transform_region_budgets` iff "year" or "region_code" is
absent after alias renaming, `aggregate_communes_by_region` iff no alias
candidate resolves the region-code or the population column. -/
theorem isErr_iff_missing_cols :
    (∀ df : Table,
      isErr (transform_region_budgets df) = true ↔
        ("year" ∉ renamedBudgetCols df ∨ "region_code" ∉ renamedBudgetCols df)) ∧
    (∀ df : Table,
      isErr (aggregate_communes_by_region df) = true ↔
        (find_col df ["reg_code", "code_region", "region_code"] = none ∨
         find_col df ["population", "pop"] = none)) := by
  constructor
  · intro df
    unfold transform_region_budgets renamedBudgetCols
    by_cases h1 : "year" ∈
        (df.rename (BUDGET_COLUMN_MAP.filter (fun p => decide (p.1 ∈ df.cols)))).cols
    · by_cases h2 : "region_code" ∈
          (df.rename (BUDGET_COLUMN_MAP.filter (fun p => decide (p.1 ∈ df.cols)))).cols
      · simp [h1, h2, isErr]
      · simp [h1, h2, isErr]
    · simp [h1, isErr]
  · intro df
    unfold aggregate_communes_by_region
    cases hc : find_col df ["reg_code", "code_region", "region_code"] with
    | none =>
        cases hp : find_col df ["population", "pop"] <;> simp [isErr, hc, hp]
    | some cc =>
        cases hp : find_col df ["population", "pop"] <;> simp [isErr, hc, hp]

/-- The refined raise model of `transform_region_budgets` produces the
missing-column `KeyError` exactly when "year" or "region_code" is absent
after alias renaming; every other exception it can raise is of a
different kind. -/
theorem budget_raise_missing_iff (df : Table) :
    (∃ c, transform_region_budgets_raise df = some (PdError.missingColumn c)) ↔
      ("year" ∉ renamedBudgetCols df ∨ "region_code" ∉ renamedBudgetCols df) := by
  simp only [transform_region_budgets_raise, renamedBudgetCols]
  set R := df.rename (BUDGET_COLUMN_MAP.filter (fun p => decide (p.1 ∈ df.cols))) with hR
  by_cases h1 : "year" ∈ R.cols
  · by_cases h2 : "region_code" ∈ R.cols
    · rw [if_neg (not_not_intro h1), if_neg (not_not_intro h2)]
      constructor
      · rintro ⟨c, hc⟩
        by_cases hA : 1 < countCol R "year" <;>
          by_cases hB : 1 < countCol R "region_code" <;>
            by_cases hC : (budgetNumericCols.any (fun x => decide (1 < countCol R x))) = true <;>
              by_cases hD : "region_name" ∈ R.cols ∧
                  (1 < countCol R "region_name" ∨
                    (¬ R.rows = [] ∧ colAllNonStr R "region_name" = true)) <;>
                simp [hA, hB, hC, hD] at hc
      · intro hcon
        rcases hcon with h | h
        · exact absurd h1 h
        · exact absurd h2 h
    · rw [if_neg (not_not_intro h1), if_pos h2]
      simp [h2]
  · rw [if_pos h1]
    simp [h1]

/-- The refined raise model of `aggregate_communes_by_region` produces the
missing-column `KeyError` exactly when no alias candidate resolves the
region-code or the population column; every other exception it can raise
is of a different kind. -/
theorem agg_raise_missing_iff (df : Table) :
    (∃ c, aggregate_communes_by_region_raise df = some (PdError.missingColumn c)) ↔
      (find_col df ["reg_code", "code_region", "region_code"] = none ∨
       find_col df ["population", "pop"] = none) := by
  unfold aggregate_communes_by_region_raise
  cases hc : find_col df ["reg_code", "code_region", "region_code"] with
  | none => cases hp : find_col df ["population", "pop"] <;> simp [hc, hp]
  | some cc =>
      cases hp : find_col df ["population", "pop"] with
      | none => simp [hc, hp]
      | some pc =>
          simp only [hc, hp]
          by_cases hA : 1 < countCol df pc <;>
            by_cases hB : 1 < countCol df cc <;>
              simp [hA, hB]

/-- C4 counterexample (to "in all other cases both functions return
normally"): inputs on which the key columns do resolve, yet the source
raises. `dupYearBudget` has both `exer` and `year`, so renaming yields two
"year" labels and `pd.to_numeric(df["year"])` receives a DataFrame — a
`TypeError` (`transformer.py:47`); `numericNameBudget` has an all-numeric
`lbudg`, so the renamed `region_name` column is numeric-dtyped and
`.str.replace` raises an `AttributeError` (`transformer.py:70`);
`dupPopCommunes` carries two `population` columns, so
`pd.to_numeric(df["population"])` raises (`transformer.py:119`). -/
theorem missing_column_totality_counterexample :
    ("year" ∈ renamedBudgetCols dupYearBudget ∧
      "region_code" ∈ renamedBudgetCols dupYearBudget ∧
      transform_region_budgets_raise dupYearBudget = some PdError.typeError) ∧
    ("year" ∈ renamedBudgetCols numericNameBudget ∧
      "region_code" ∈ renamedBudgetCols numericNameBudget ∧
      transform_region_budgets_raise numericNameBudget = some PdError.attributeError) ∧
    (find_col dupPopCommunes ["reg_code", "code_region", "region_code"] = some "reg_code" ∧
      find_col dupPopCommunes ["population", "pop"] = some "population" ∧
      aggregate_communes_by_region_raise dupPopCommunes = some PdError.typeError) := by
  decide

/-- C4 (amended): each function raises the missing-column `KeyError`
exactly when its key columns are unresolvable — `transform_region_budgets`
iff "year" or "region_code" is absent after alias renaming,
`aggregate_communes_by_region` iff no alias candidate resolves the
region-code or the population column — and these are exactly the error
cases of the simplified `Except` model; with the key columns present the
functions can still raise exceptions of other kinds (a `TypeError` or
`AttributeError` from duplicated labels or a numeric-dtyped name column),
so they do not always return normally. -/
theorem missing_column_error_kinds :
    (∀ df : Table,
      ((∃ c, transform_region_budgets_raise df = some (PdError.missingColumn c)) ↔
        ("year" ∉ renamedBudgetCols df ∨ "region_code" ∉ renamedBudgetCols df)) ∧
      ((∃ c, transform_region_budgets_raise df = some (PdError.missingColumn c)) ↔
        isErr (transform_region_budgets df) = true)) ∧
    (∀ df : Table,
      ((∃ c, aggregate_communes_by_region_raise df = some (PdError.missingColumn c)) ↔
        (find_col df ["reg_code", "code_region", "region_code"] = none ∨
         find_col df ["population", "pop"] = none)) ∧
      ((∃ c, aggregate_communes_by_region_raise df = some (PdError.missingColumn c)) ↔
        isErr (aggregate_communes_by_region df) = true)) := by
  refine ⟨fun df => ⟨budget_raise_missing_iff df, ?_⟩,
    fun df => ⟨agg_raise_missing_iff df, ?_⟩⟩
  · exact (budget_raise_missing_iff df).trans (isErr_iff_missing_cols.1 df).symm
  · exact (agg_raise_missing_iff df).trans (isErr_iff_missing_cols.2 df).symm

/-- C1 (code evaluation, supporting a code-bug verdict): on an input with
two identical rows, `transform_region_budgets` returns normally and its
output has two rows sharing the key (2023, "011") — contradicting the
function docstring "one row per (year, region_code)". -/
theorem transform_region_budgets_duplicate_key :
    isErr (transform_region_budgets dupBudget) = false ∧
    (rowsOf (transform_region_budgets dupBudget)).map
      (fun r => (r.get "year", r.get "region_code")) =
      [(Cell.num 2023, Cell.str "011"), (Cell.num 2023, Cell.str "011")] := by
  constructor <;>
  norm_num +decide [transform_region_budgets, dupBudget, BUDGET_COLUMN_MAP, rowsOf, isErr,
    Table.rename, Table.mapCol, Table.setCol, Table.select, Table.dropna, Row.get, Row.set,
    renameName, toNumeric, parseNumeral, fillZero, castInt, truncQ, cellToStr, natToDigits,
    zfill3, pyStrip, pyTitle, titleChars, isCased, lowerChar, isPySpace, stripRegTag,
    cleanRegionName, addCell, budgetNumericCols, budgetKeepCols, digitsToNat,
    List.foldl, List.dropWhile, List.rdropWhile, List.find?, List.filter, List.all]

set_option maxRecDepth 16000 in
set_option maxHeartbeats 1000000 in
/-- C2 counterexample: with total_population 0 and total_revenue 1/8
(= 0.125), the returned revenue_per_capita is 3/25 (= 0.12), which is not
equal to total_revenue — the per-capita value is rounded to 2 decimals. -/
theorem compute_region_stats_round_counterexample :
    (rowsOf (compute_region_stats eighthBudget zeroPopAgg)).map
      (fun r => (r.get "total_population", r.get "total_revenue", r.get "revenue_per_capita")) =
      [(Cell.num 0, Cell.num (1/8), Cell.num (3/25))] ∧
    ¬ ((3 : ℚ)/25 = 1/8) := by
  refine ⟨?_, by norm_num⟩
  have h1 : ⌊(25:ℚ)/2⌋ = 12 := by norm_num
  have hrhe : roundHalfEven ((1:ℚ)/8 * 100) = 12 := by
    have harg : (1:ℚ)/8 * 100 = 25/2 := by norm_num
    rw [harg]
    simp only [roundHalfEven]
    rw [h1]
    rw [if_neg (by norm_num), if_neg (by norm_num), if_pos (by norm_num)]
  have hr2 : round2 ((1:ℚ)/8) = 3/25 := by
    unfold round2
    rw [hrhe]
    norm_num
  norm_num +decide [compute_region_stats, eighthBudget, zeroPopAgg, rowsOf,
    Table.mapCol, Table.setCol, Table.select, Row.get, Row.set, Table.dropna,
    toNumeric, cellToStr, natToDigits, pyStrip, isPySpace, stripJoinKey, lstripZeros,
    divCell, replaceZeroOne, round2Cell, hr2, statsKeepCols,
    List.foldl, List.dropWhile, List.rdropWhile, List.find?, List.filter, List.all,
    List.flatMap, List.isEmpty]

set_option maxRecDepth 16000 in
set_option maxHeartbeats 1000000 in
/-- C3 counterexample: a population value of "-5" is coerced to the
integer -5 (not clamped to a non-negative value), so the aggregate
returns normally with a negative total_population. -/
theorem aggregate_negative_population_counterexample :
    isErr (aggregate_communes_by_region negPopCommunes) = false ∧
    (rowsOf (aggregate_communes_by_region negPopCommunes)).map
      (fun r => r.get "total_population") = [Cell.num (-5)] ∧
    ¬ ((0 : ℚ) ≤ -5) := by
  refine ⟨?_, ?_, by norm_num⟩ <;>
  norm_num +decide [aggregate_communes_by_region, negPopCommunes, rowsOf, isErr, find_col,
    Table.mapCol, Table.rename, Row.get, Row.set, renameName,
    toNumeric, parseNumeral, fillZero, castInt, truncQ, cellToStr, natToDigits,
    pyStrip, isPySpace, digitsToNat, Char.isDigit, sumCells, countNonNull, firstNonNull,
    List.foldl, List.dropWhile, List.rdropWhile, List.find?, List.filter, List.all,
    List.insertionSort, List.orderedInsert, List.dedup, List.map, List.takeWhile,
    show '0'.toNat = 48 from rfl, show '5'.toNat = 53 from rfl]

set_option maxRecDepth 16000 in
set_option maxHeartbeats 1000000 in
/-- C5 counterexample: the first region-name value encountered for region
"1" in input order is null, yet the aggregate's region_name is the later
non-null value "X" — pandas groupby "first" skips missing values. -/
theorem aggregate_first_name_counterexample :
    (nullFirstName.rows.map (fun r => r.get "reg_nom")).head? = some Cell.null ∧
    (rowsOf (aggregate_communes_by_region nullFirstName)).map
      (fun r => r.get "region_name") = [Cell.str "X"] ∧
    ¬ (Cell.str "X" = Cell.null) := by
  refine ⟨?_, ?_, by simp⟩
  · norm_num +decide [nullFirstName, Row.get, List.find?]
  · norm_num +decide [aggregate_communes_by_region, nullFirstName, rowsOf, isErr, find_col,
      Table.mapCol, Table.rename, Row.get, Row.set, renameName,
      toNumeric, parseNumeral, fillZero, castInt, truncQ, cellToStr, natToDigits,
      pyStrip, isPySpace, digitsToNat, Char.isDigit, sumCells, countNonNull, firstNonNull,
      List.foldl, List.dropWhile, List.rdropWhile, List.find?, List.filter, List.all,
      List.insertionSort, List.orderedInsert, List.dedup, List.map, List.takeWhile,
      show '0'.toNat = 48 from rfl, show '5'.toNat = 53 from rfl]

/-! ## Lemmas: table stages -/

theorem mem_mapCol {t : Table} {c : String} {f : Cell → Cell} {r' : Row}
    (h : r' ∈ (t.mapCol c f).rows) :
    ∃ r ∈ t.rows, r' = Row.set r c (f (Row.get r c)) := by
  rcases List.mem_map.mp h with ⟨r, hr, rfl⟩
  exact ⟨r, hr, rfl⟩

theorem mem_setCol {t : Table} {c : String} {f : Row → Cell} {r' : Row}
    (h : r' ∈ (t.setCol c f).rows) :
    ∃ r ∈ t.rows, r' = Row.set r c (f r) := by
  rcases List.mem_map.mp h with ⟨r, hr, rfl⟩
  exact ⟨r, hr, rfl⟩

theorem mem_select {t : Table} {keep : List String} {r' : Row}
    (h : r' ∈ (t.select keep).rows) :
    ∃ r ∈ t.rows, r' = keep.map (fun c => (c, Row.get r c)) := by
  rcases List.mem_map.mp h with ⟨r, hr, rfl⟩
  exact ⟨r, hr, rfl⟩

theorem mem_dropna {t : Table} {subset : List String} {r' : Row}
    (h : r' ∈ (t.dropna subset).rows) :
    r' ∈ t.rows ∧ ∀ c ∈ subset, ¬ Row.get r' c = Cell.null := by
  have h1 := List.mem_of_mem_filter h
  have h2 := List.of_mem_filter h
  refine ⟨h1, ?_⟩
  intro c hc
  have := (List.all_eq_true.mp h2) c hc
  simpa using this

theorem mapCol_cols_of_mem {t : Table} {c : String} (f : Cell → Cell)
    (h : c ∈ t.cols) : (t.mapCol c f).cols = t.cols := by
  simp [Table.mapCol, h]

theorem setCol_cols_sub {t : Table} {c : String} (f : Row → Cell) :
    t.cols ⊆ (t.setCol c f).cols := by
  unfold Table.setCol
  by_cases h : c ∈ t.cols
  · rw [if_pos h]; exact fun _ hx => hx
  · rw [if_neg h]; exact List.subset_append_left _ _

theorem mem_setCol_cols {t : Table} {c : String} (f : Row → Cell) :
    c ∈ (t.setCol c f).cols := by
  unfold Table.setCol
  by_cases h : c ∈ t.cols
  · rw [if_pos h]; exact h
  · rw [if_neg h]; simp

/-- The guarded numeric-coercion fold (`for col in ...: if col in df...`)
keeps the schema unchanged. -/
theorem foldCoerce_cols (g : Cell → Cell) :
    ∀ (cs : List String) (t : Table),
      (cs.foldl (fun t c => if c ∈ t.cols then t.mapCol c g else t) t).cols = t.cols := by
  intro cs
  induction cs with
  | nil => intro t; rfl
  | cons c cs ih =>
      intro t
      simp only [List.foldl_cons]
      by_cases h : c ∈ t.cols
      · rw [if_pos h, ih, mapCol_cols_of_mem g h]
      · rw [if_neg h, ih]

/-- The guarded numeric-coercion fold keeps the rows of column `c0` intact
when `c0` is not one of the coerced columns. -/
theorem foldCoerce_get_of_not_mem (g : Cell → Cell) {c0 : String} :
    ∀ (cs : List String), c0 ∉ cs →
      ∀ (t : Table),
        ∀ r' ∈ (cs.foldl (fun t c => if c ∈ t.cols then t.mapCol c g else t) t).rows,
          ∃ r ∈ t.rows, Row.get r' c0 = Row.get r c0 := by
  intro cs
  induction cs with
  | nil => intro _ t r' hr'; exact ⟨r', hr', rfl⟩
  | cons c cs ih =>
      intro hc0 t r' hr'
      simp only [List.foldl_cons] at hr'
      have hc0' : c0 ∉ cs := fun h => hc0 (List.mem_cons_of_mem _ h)
      have hne : ¬ c0 = c := fun h => hc0 (h ▸ List.mem_cons_self c cs)
      by_cases h : c ∈ t.cols
      · rw [if_pos h] at hr'
        rcases ih hc0' _ r' hr' with ⟨r1, hr1, hv⟩
        rcases mem_mapCol hr1 with ⟨r, hr, rfl⟩
        exact ⟨r, hr, hv.trans (Row.get_set_ne _ _ _ _ hne)⟩
      · rw [if_neg h] at hr'
        exact ih hc0' _ r' hr'

/-- After the guarded fold, every cell of a coerced column is whatever `g`
guarantees, provided `g` always produces a numeric cell. -/
theorem foldCoerce_num_stable (g : Cell → Cell) (hg : ∀ x, ∃ q : ℚ, g x = Cell.num q)
    {c0 : String} :
    ∀ (cs : List String) (t : Table),
      (∀ r ∈ t.rows, ∃ q : ℚ, Row.get r c0 = Cell.num q) →
      ∀ r' ∈ (cs.foldl (fun t c => if c ∈ t.cols then t.mapCol c g else t) t).rows,
        ∃ q : ℚ, Row.get r' c0 = Cell.num q := by
  intro cs
  induction cs with
  | nil => intro t ht r' hr'; exact ht r' hr'
  | cons c cs ih =>
      intro t ht r' hr'
      simp only [List.foldl_cons] at hr'
      by_cases h : c ∈ t.cols
      · rw [if_pos h] at hr'
        refine ih _ ?_ r' hr'
        intro r1 hr1
        rcases mem_mapCol hr1 with ⟨r, hr, rfl⟩
        by_cases hc : c0 = c
        · subst hc
          rw [Row.get_set_same]
          exact hg _
        · rw [Row.get_set_ne _ _ _ _ hc]
          exact ht r hr
      · rw [if_neg h] at hr'
        exact ih _ ht r' hr'

theorem foldCoerce_get_num (g : Cell → Cell) (hg : ∀ x, ∃ q : ℚ, g x = Cell.num q)
    {c0 : String} :
    ∀ (cs : List String), c0 ∈ cs →
      ∀ (t : Table), c0 ∈ t.cols →
        ∀ r' ∈ (cs.foldl (fun t c => if c ∈ t.cols then t.mapCol c g else t) t).rows,
          ∃ q : ℚ, Row.get r' c0 = Cell.num q := by
  intro cs
  induction cs with
  | nil => intro h; cases h
  | cons c cs ih =>
      intro hmem t hcols r' hr'
      simp only [List.foldl_cons] at hr'
      by_cases hc : c0 = c
      · subst hc
        rw [if_pos hcols] at hr'
        refine foldCoerce_num_stable g hg cs _ ?_ r' hr'
        intro r1 hr1
        rcases mem_mapCol hr1 with ⟨r, hr, rfl⟩
        rw [Row.get_set_same]
        exact hg _
      · have hmem' : c0 ∈ cs := by
          rcases List.mem_cons.mp hmem with h | h
          · exact absurd h hc
          · exact h
        by_cases h : c ∈ t.cols
        · rw [if_pos h] at hr'
          refine ih hmem' _ ?_ r' hr'
          rw [mapCol_cols_of_mem g h]
          exact hcols
        · rw [if_neg h] at hr'
          exact ih hmem' _ hcols r' hr'

/-- The coercion used on budget numeric columns always yields a number. -/
theorem fillZero_toNumeric_num (x : Cell) :
    ∃ q : ℚ, fillZero (toNumeric x) = Cell.num q := by
  cases x with
  | num q => exact ⟨q, rfl⟩
  | null => exact ⟨0, rfl⟩
  | str s =>
      cases hp : parseNumeral s with
      | none => exact ⟨0, by simp [toNumeric, fillZero, hp]⟩
      | some q => exact ⟨q, by simp [toNumeric, fillZero, hp]⟩


theorem map_id_of_mem {α} {f : α → α} :
    ∀ {l : List α}, (∀ x ∈ l, f x = x) → l.map f = l := by
  intro l
  induction l with
  | nil => intro _; rfl
  | cons a as ih =>
      intro h
      simp only [List.map_cons]
      rw [h a (List.mem_cons_self _ _), ih (fun x hx => h x (List.mem_cons_of_mem _ hx))]

/-- C10: for every input on which `aggregate_communes_by_region` returns
normally, the output rows are strictly ascending in region_code — pandas
`groupby` sorts the group keys, so the input's first-seen order is not
preserved. -/
theorem aggregate_rows_sorted (df t : Table)
    (h : aggregate_communes_by_region df = Except.ok t) :
    (t.rows.map (fun r => cellToStr (r.get "region_code"))).Chain' (· < ·) := by
  cases hc : find_col df ["reg_code", "code_region", "region_code"] with
  | none =>
      cases hp : find_col df ["population", "pop"] <;>
        simp [aggregate_communes_by_region, hc, hp] at h
  | some code_col =>
      cases hp : find_col df ["population", "pop"] with
      | none => simp [aggregate_communes_by_region, hc, hp] at h
      | some pop_col =>
          simp only [aggregate_communes_by_region, hc, hp, Except.ok.injEq] at h
          subst h
          simp only [Table.rename, List.map_map]
          rw [map_id_of_mem]
          · have hsorted := List.sorted_insertionSort (r := (· ≤ ·))
              (((((df.mapCol pop_col (fun c => castInt (fillZero (toNumeric c)))).mapCol
                code_col (fun c => Cell.str (pyStrip (cellToStr c)))).rows.map
                (fun r => cellToStr (r.get code_col))).dedup))
            have hnodup := (List.perm_insertionSort (r := (· ≤ ·))
              (((((df.mapCol pop_col (fun c => castInt (fillZero (toNumeric c)))).mapCol
                code_col (fun c => Cell.str (pyStrip (cellToStr c)))).rows.map
                (fun r => cellToStr (r.get code_col))).dedup))).nodup_iff.mpr
              (List.nodup_dedup _)
            exact (hsorted.lt_of_le hnodup).chain'
          · intro k _
            simp only [Function.comp_apply, List.map_cons, List.map_nil]
            rw [show renameName [(code_col, "region_code")] code_col = "region_code" by
              simp [renameName]]
            rw [Row.get_cons_same]
            rfl

set_option maxRecDepth 16000 in
set_option maxHeartbeats 1000000 in
/-- C10 witness: the strict ordering theorem instantiated on a concrete
input whose codes first appear as "2", "1". -/
theorem aggregate_rows_sorted_witness :
    (aggUnsortedOut.rows.map (fun r => cellToStr (r.get "region_code"))).Chain' (· < ·) := by
  have h : aggregate_communes_by_region unsortedCommunes = Except.ok aggUnsortedOut := by
    norm_num +decide [aggregate_communes_by_region, unsortedCommunes, aggUnsortedOut, find_col,
      Table.mapCol, Table.rename, Row.get, Row.set, renameName,
      toNumeric, parseNumeral, fillZero, castInt, truncQ, cellToStr, natToDigits,
      pyStrip, isPySpace, digitsToNat, Char.isDigit, sumCells, countNonNull, firstNonNull,
      List.foldl, List.dropWhile, List.rdropWhile, List.find?, List.filter, List.all,
      List.insertionSort, List.orderedInsert, List.dedup, List.map, List.takeWhile]
  exact aggregate_rows_sorted unsortedCommunes aggUnsortedOut h


/-! ## Lemmas: renaming and alias resolution -/

theorem find_col_mem {t : Table} {cands : List String} {c : String}
    (h : find_col t cands = some c) : c ∈ cands ∧ c ∈ t.cols := by
  refine ⟨List.mem_of_find?_eq_some h, ?_⟩
  have h2 := List.find?_some h
  simpa using h2

theorem renameName_ne {m : List (String × String)} {c z : String}
    (hv : ∀ p ∈ m, ¬ p.2 = z) (hcz : ¬ c = z) : ¬ renameName m c = z := by
  unfold renameName
  cases hf : m.find? (fun p => decide (p.1 = c)) with
  | some p => exact hv p (List.mem_of_find?_eq_some hf)
  | none => exact hcz

theorem renameName_eq_self {m : List (String × String)} {c : String}
    (hk : ∀ p ∈ m, ¬ p.1 = c) : renameName m c = c := by
  unfold renameName
  cases hf : m.find? (fun p => decide (p.1 = c)) with
  | some p =>
      have hp := List.find?_some hf
      simp only [decide_eq_true_eq] at hp
      exact absurd hp (hk p (List.mem_of_find?_eq_some hf))
  | none => rfl

theorem mem_rename_cols_iff {t : Table} {m : List (String × String)} {c : String}
    (hk : ∀ p ∈ m, ¬ p.1 = c) (hv : ∀ p ∈ m, ¬ p.2 = c) :
    c ∈ (t.rename m).cols ↔ c ∈ t.cols := by
  simp only [Table.rename]
  constructor
  · intro h
    rcases List.mem_map.mp h with ⟨y, hy, hyc⟩
    by_cases hyeq : y = c
    · exact hyeq ▸ hy
    · exact absurd hyc (renameName_ne hv hyeq)
  · intro h
    exact List.mem_map.mpr ⟨c, h, renameName_eq_self hk⟩

theorem month_mem_employmentAliased (df : Table) :
    "month" ∈ (employmentAliased df).cols ↔ "month" ∈ df.cols := by
  have hmap : ∀ p ∈ EMPLOYMENT_COLUMN_MAP, ¬ p.1 = "month" ∧ ¬ p.2 = "month" := by decide
  have step1 : "month" ∈
      (df.rename (EMPLOYMENT_COLUMN_MAP.filter (fun p => decide (p.1 ∈ df.cols)))).cols ↔
      "month" ∈ df.cols :=
    mem_rename_cols_iff
      (fun p hp => (hmap p (List.mem_of_mem_filter hp)).1)
      (fun p hp => (hmap p (List.mem_of_mem_filter hp)).2)
  simp only [employmentAliased]
  cases hn : find_col (df.rename (EMPLOYMENT_COLUMN_MAP.filter (fun p => decide (p.1 ∈ df.cols))))
      ["region_name", "region", "nom_region"] with
  | none =>
      cases hc : find_col (df.rename (EMPLOYMENT_COLUMN_MAP.filter
          (fun p => decide (p.1 ∈ df.cols)))) ["region_code", "code_region"] with
      | none => simp only [hn, hc]; exact step1
      | some cc =>
          simp only [hn, hc]
          have hcc := (find_col_mem hc).1
          simp only [List.mem_cons, List.not_mem_nil, or_false] at hcc
          by_cases hif : cc ≠ "region_code"
          · rw [if_pos hif]
            refine Iff.trans ?_ step1
            refine mem_rename_cols_iff ?_ ?_
            · intro p hp
              rcases List.mem_singleton.mp hp with rfl
              rcases hcc with rfl | rfl <;> simp
            · intro p hp
              rcases List.mem_singleton.mp hp with rfl
              simp
          · rw [if_neg hif]
            exact step1
  | some nc =>
      have hnc := (find_col_mem hn).1
      simp only [List.mem_cons, List.not_mem_nil, or_false] at hnc
      have hbase : ∀ u : Table, ("month" ∈ u.cols ↔ "month" ∈ df.cols) →
          ("month" ∈ (if nc ≠ "region_name" then u.rename [(nc, "region_name")] else u).cols ↔
            "month" ∈ df.cols) := by
        intro u hu
        by_cases hif : nc ≠ "region_name"
        · rw [if_pos hif]
          refine Iff.trans ?_ hu
          refine mem_rename_cols_iff ?_ ?_
          · intro p hp
            rcases List.mem_singleton.mp hp with rfl
            rcases hnc with rfl | rfl | rfl <;> simp
          · intro p hp
            rcases List.mem_singleton.mp hp with rfl
            simp
        · rw [if_neg hif]
          exact hu
      cases hc : find_col (df.rename (EMPLOYMENT_COLUMN_MAP.filter
          (fun p => decide (p.1 ∈ df.cols)))) ["region_code", "code_region"] with
      | none => simp only [hn, hc]; exact hbase _ step1
      | some cc =>
          simp only [hn, hc]
          have hcc := (find_col_mem hc).1
          simp only [List.mem_cons, List.not_mem_nil, or_false] at hcc
          by_cases hif : cc ≠ "region_code"
          · rw [if_pos hif]
            refine hbase _ (Iff.trans ?_ step1)
            refine mem_rename_cols_iff ?_ ?_
            · intro p hp
              rcases List.mem_singleton.mp hp with rfl
              rcases hcc with rfl | rfl <;> simp
            · intro p hp
              rcases List.mem_singleton.mp hp with rfl
              simp
          · rw [if_neg hif]
            exact hbase _ step1

set_option maxHeartbeats 3200000 in
/-- C7: `transform_employment` returns an empty table, rather than
raising, when no date column resolves and no "month" column already
exists in the input ("month"-membership is invariant under the alias
renames); otherwise, when a date column is found, every output row's
month is a "YYYY-MM" string parsed from a date, and every row whose month
is missing or whose date was unparseable has been dropped. -/
theorem transform_employment_temporal (df : Table) :
    ("month" ∈ (employmentAliased df).cols ↔ "month" ∈ df.cols) ∧
    (find_col (employmentAliased df) ["month_date", "dernier_jour_du_mois"] = none →
      "month" ∉ df.cols → transform_employment df = ⟨[], []⟩) ∧
    (∀ dc, find_col (employmentAliased df) ["month_date", "dernier_jour_du_mois"] = some dc →
      ∀ r ∈ (transform_employment df).rows,
        ∃ y mo : ℕ, Row.get r "month" = Cell.str (fmtYM y mo)) := by
  refine ⟨month_mem_employmentAliased df, ?_, ?_⟩
  · intro hdate hmonth
    simp only [transform_employment, hdate]
    rw [if_neg (fun hmem => hmonth ((month_mem_employmentAliased df).mp hmem))]
  · intro dc hdate r hr
    simp only [transform_employment, hdate, finishEmployment] at hr
    obtain ⟨hrsel, hnn⟩ := mem_dropna hr
    have hmm := hnn "month" (List.mem_cons_self _ _)
    obtain ⟨r2, hr2, rfl⟩ := mem_select hrsel
    rw [Row.get_ofSelect] at hmm ⊢
    set T0 := (employmentAliased df).setCol "month" (fun r =>
      match parseDate (r.get dc) with
      | some ym => Cell.str (fmtYM ym.1 ym.2)
      | none => Cell.null) with hT0
    set Tf := employmentNumericCols.foldl
      (fun t c => if c ∈ t.cols then t.mapCol c toNumeric else t) T0 with hTf
    set T1 := if "region_code" ∈ Tf.cols then
      Tf.mapCol "region_code" (fun c => Cell.str (pyStrip (cellToStr c))) else Tf with hT1
    have hmonth0 : "month" ∈ T0.cols := mem_setCol_cols _
    have hmonthF : "month" ∈ Tf.cols := by
      rw [hTf, foldCoerce_cols]
      exact hmonth0
    have hmonth1 : "month" ∈ T1.cols := by
      rw [hT1]
      by_cases hrc : "region_code" ∈ Tf.cols
      · rw [if_pos hrc, mapCol_cols_of_mem _ hrc]
        exact hmonthF
      · rw [if_neg hrc]
        exact hmonthF
    have hkeep : "month" ∈ employmentKeepCols.filter (fun c => decide (c ∈ T1.cols)) :=
      List.mem_filter.mpr ⟨by decide, decide_eq_true hmonth1⟩
    rw [if_pos hkeep] at hmm ⊢
    have hback : ∃ r0 ∈ T0.rows, Row.get r2 "month" = Row.get r0 "month" := by
      rw [hT1] at hr2
      by_cases hrc : "region_code" ∈ Tf.cols
      · rw [if_pos hrc] at hr2
        obtain ⟨r3, hr3, rfl⟩ := mem_mapCol hr2
        rw [hTf] at hr3
        obtain ⟨r0, hr0, hv⟩ := @foldCoerce_get_of_not_mem toNumeric "month"
          employmentNumericCols (by decide) T0 r3 hr3
        exact ⟨r0, hr0, (Row.get_set_ne _ _ _ _ (by decide)).trans hv⟩
      · rw [if_neg hrc] at hr2
        rw [hTf] at hr2
        exact @foldCoerce_get_of_not_mem toNumeric "month" employmentNumericCols (by decide) T0 r2 hr2
    obtain ⟨r0, hr0, hval⟩ := hback
    rw [hT0] at hr0
    obtain ⟨r5, hr5, rfl⟩ := mem_setCol hr0
    rw [hval] at hmm ⊢
    rw [Row.get_set_same] at hmm ⊢
    cases hpd : parseDate (r5.get dc) with
    | none => rw [hpd] at hmm; simp at hmm
    | some ym => exact ⟨ym.1, ym.2, rfl⟩

set_option maxRecDepth 16000 in
set_option maxHeartbeats 1000000 in
/-- C7 witness: the theorem instantiated on concrete inputs — a table with
no temporal key yields the empty table; the sample input's surviving row
carries a formatted month. -/
theorem transform_employment_temporal_witness :
    transform_employment noTemporalEmployment = ⟨[], []⟩ ∧
    (∃ y mo : ℕ, Row.get employmentOutRow "month" = Cell.str (fmtYM y mo)) := by
  constructor
  · exact (transform_employment_temporal noTemporalEmployment).2.1 (by decide) (by decide)
  · have hrows : (transform_employment employmentSample).rows = [employmentOutRow] := by
      norm_num +decide [transform_employment, employmentAliased, finishEmployment,
        employmentSample, employmentOutRow, EMPLOYMENT_COLUMN_MAP, find_col,
        Table.rename, Table.mapCol, Table.setCol, Table.select, Table.dropna,
        Row.get, Row.set, renameName, toNumeric, parseNumeral, cellToStr, natToDigits,
        pyStrip, isPySpace, parseDate, splitDash, digitsToNat, Char.isDigit,
        employmentNumericCols, employmentKeepCols,
        List.foldl, List.dropWhile, List.rdropWhile, List.find?, List.filter, List.all,
        List.map, List.takeWhile,
        show '0'.toNat = 48 from rfl, show '1'.toNat = 49 from rfl,
        show '2'.toNat = 50 from rfl, show '3'.toNat = 51 from rfl]
    exact (transform_employment_temporal employmentSample).2.2 "month_date" (by decide)
      employmentOutRow (by rw [hrows]; exact List.mem_cons_self _ _)



/-! ## Lemmas: stage traces (no substitution of row expressions) -/

theorem mapCol_trace (T : Table) (c : String) (f : Cell → Cell) :
    ∀ r ∈ (T.mapCol c f).rows, ∃ r' ∈ T.rows,
      (Row.get r c = f (Row.get r' c)) ∧
      (∀ X, ¬ X = c → Row.get r X = Row.get r' X) := by
  intro r hr
  rcases List.mem_map.mp hr with ⟨r', hr', he⟩
  refine ⟨r', hr', ?_, ?_⟩
  · rw [← he, Row.get_set_same]
  · intro X hX
    rw [← he, Row.get_set_ne _ _ _ _ hX]

theorem setCol_trace (T : Table) (c : String) (f : Row → Cell) :
    ∀ r ∈ (T.setCol c f).rows, ∃ r' ∈ T.rows,
      (Row.get r c = f r') ∧
      (∀ X, ¬ X = c → Row.get r X = Row.get r' X) := by
  intro r hr
  rcases List.mem_map.mp hr with ⟨r', hr', he⟩
  refine ⟨r', hr', ?_, ?_⟩
  · rw [← he, Row.get_set_same]
  · intro X hX
    rw [← he, Row.get_set_ne _ _ _ _ hX]

theorem select_trace (T : Table) (keep : List String) :
    ∀ r ∈ (T.select keep).rows, ∃ r' ∈ T.rows,
      ∀ X ∈ keep, Row.get r X = Row.get r' X := by
  intro r hr
  rcases List.mem_map.mp hr with ⟨r', hr', he⟩
  refine ⟨r', hr', ?_⟩
  intro X hX
  rw [← he, Row.get_ofSelect, if_pos hX]

set_option maxHeartbeats 3200000 in
/-- Trace of the budget pipeline: when all four operating/investment
source columns survive the alias renaming, every output row carries
numeric components and their exact sums. -/
theorem budget_totals_trace (df t : Table)
    (h : transform_region_budgets df = Except.ok t)
    (hop : "operating_revenue" ∈ renamedBudgetCols df)
    (hiv : "investment_revenue" ∈ renamedBudgetCols df)
    (hoe : "operating_expenditure" ∈ renamedBudgetCols df)
    (hie : "investment_expenditure" ∈ renamedBudgetCols df) :
    ∀ r ∈ t.rows, ∃ a b c d : ℚ,
      Row.get r "operating_revenue" = Cell.num a ∧
      Row.get r "investment_revenue" = Cell.num b ∧
      Row.get r "total_revenue" = Cell.num (a + b) ∧
      Row.get r "operating_expenditure" = Cell.num c ∧
      Row.get r "investment_expenditure" = Cell.num d ∧
      Row.get r "total_expenditure" = Cell.num (c + d) := by
  simp only [renamedBudgetCols] at hop hiv hoe hie
  simp only [transform_region_budgets] at h
  set T1 := df.rename (BUDGET_COLUMN_MAP.filter (fun p => decide (p.1 ∈ df.cols))) with hT1
  by_cases hy : "year" ∈ T1.cols
  · by_cases hrc : "region_code" ∈ T1.cols
    · rw [if_neg (not_not_intro hy), if_neg (not_not_intro hrc)] at h
      set T2 := T1.mapCol "year" toNumeric with hT2
      set T3 := T2.mapCol "region_code" (fun c => Cell.str (zfill3 (pyStrip (cellToStr c)))) with hT3
      set T4 := budgetNumericCols.foldl
        (fun t c => if c ∈ t.cols then t.mapCol c (fun x => fillZero (toNumeric x)) else t) T3 with hT4
      have hT2c : T2.cols = T1.cols := mapCol_cols_of_mem _ hy
      have hT3c : T3.cols = T1.cols := by
        rw [hT3, mapCol_cols_of_mem _ (by rw [hT2c]; exact hrc)]
        exact hT2c
      have hT4c : T4.cols = T1.cols := by
        rw [hT4, foldCoerce_cols]
        exact hT3c
      have cond1 : "operating_revenue" ∈ T4.cols ∧ "investment_revenue" ∈ T4.cols := by
        rw [hT4c]; exact ⟨hop, hiv⟩
      rw [if_pos cond1] at h
      set T5 := T4.setCol "total_revenue"
        (fun r => addCell (r.get "operating_revenue") (r.get "investment_revenue")) with hT5
      have hT5sub : T4.cols ⊆ T5.cols := setCol_cols_sub _
      have cond2 : "operating_expenditure" ∈ T5.cols ∧ "investment_expenditure" ∈ T5.cols := by
        constructor
        · exact hT5sub (by rw [hT4c]; exact hoe)
        · exact hT5sub (by rw [hT4c]; exact hie)
      rw [if_pos cond2] at h
      set T6 := T5.setCol "total_expenditure"
        (fun r => addCell (r.get "operating_expenditure") (r.get "investment_expenditure")) with hT6
      have hT6sub : T5.cols ⊆ T6.cols := setCol_cols_sub _
      set T7 := if "region_name" ∈ T6.cols then T6.mapCol "region_name" cleanRegionName else T6
        with hT7
      have hT7sub : T6.cols ⊆ T7.cols := by
        rw [hT7]
        by_cases hrn : "region_name" ∈ T6.cols
        · rw [if_pos hrn, mapCol_cols_of_mem _ hrn]
          exact fun _ hx => hx
        · rw [if_neg hrn]
          exact fun _ hx => hx
      have hmem6 : ∀ X ∈ (["operating_revenue", "investment_revenue", "total_revenue",
          "operating_expenditure", "investment_expenditure", "total_expenditure"] : List String),
          X ∈ T6.cols := by
        intro X hX
        simp only [List.mem_cons, List.not_mem_nil, or_false] at hX
        rcases hX with rfl | rfl | rfl | rfl | rfl | rfl
        · exact hT6sub (hT5sub (by rw [hT4c]; exact hop))
        · exact hT6sub (hT5sub (by rw [hT4c]; exact hiv))
        · exact hT6sub (mem_setCol_cols _)
        · exact hT6sub (hT5sub (by rw [hT4c]; exact hoe))
        · exact hT6sub (hT5sub (by rw [hT4c]; exact hie))
        · exact mem_setCol_cols _
      have hkeep : ∀ X ∈ (["operating_revenue", "investment_revenue", "total_revenue",
          "operating_expenditure", "investment_expenditure", "total_expenditure"] : List String),
          X ∈ budgetKeepCols.filter (fun c => decide (c ∈ T7.cols)) := by
        intro X hX
        refine List.mem_filter.mpr ⟨?_, decide_eq_true (hT7sub (hmem6 X hX))⟩
        simp only [List.mem_cons, List.not_mem_nil, or_false] at hX
        rcases hX with rfl | rfl | rfl | rfl | rfl | rfl <;> decide
      simp only [Except.ok.injEq] at h
      subst h
      intro r hr
      obtain ⟨r9, hr9, -, hp9⟩ := mapCol_trace _ "year" castInt r hr
      obtain ⟨hr9m, -⟩ := mem_dropna hr9
      obtain ⟨r8, hr8, hp8⟩ := select_trace _ _ r9 hr9m
      have hstep7 : ∃ r6 ∈ T6.rows, ∀ X, ¬ X = "region_name" → Row.get r8 X = Row.get r6 X := by
        rw [hT7] at hr8
        by_cases hrn : "region_name" ∈ T6.cols
        · rw [if_pos hrn] at hr8
          obtain ⟨r6, hr6, -, hp⟩ := mapCol_trace _ "region_name" cleanRegionName r8 hr8
          exact ⟨r6, hr6, hp⟩
        · rw [if_neg hrn] at hr8
          exact ⟨r8, hr8, fun X _ => rfl⟩
      obtain ⟨r6, hr6, hp7⟩ := hstep7
      obtain ⟨r5, hr5, hv6, hp6⟩ := setCol_trace _ _ _ r6 hr6
      obtain ⟨r4, hr4, hv5, hp5⟩ := setCol_trace _ _ _ r5 hr5
      have hnum : ∀ X ∈ budgetNumericCols, X ∈ T3.cols →
          ∃ q : ℚ, Row.get r4 X = Cell.num q := by
        intro X hX hXc
        rw [hT4] at hr4
        exact @foldCoerce_get_num (fun x => fillZero (toNumeric x)) fillZero_toNumeric_num
          X budgetNumericCols hX T3 hXc r4 hr4
      obtain ⟨a, ha⟩ := hnum "operating_revenue" (by decide) (by rw [hT3c]; exact hop)
      obtain ⟨b, hb⟩ := hnum "investment_revenue" (by decide) (by rw [hT3c]; exact hiv)
      obtain ⟨c, hc⟩ := hnum "operating_expenditure" (by decide) (by rw [hT3c]; exact hoe)
      obtain ⟨d, hd⟩ := hnum "investment_expenditure" (by decide) (by rw [hT3c]; exact hie)
      have hup : ∀ X, ¬ X = "year" → X ∈ budgetKeepCols.filter (fun c => decide (c ∈ T7.cols)) →
          ¬ X = "region_name" → Row.get r X = Row.get r6 X := by
        intro X h1 h2 h3
        rw [hp9 X h1, hp8 X h2, hp7 X h3]
      refine ⟨a, b, c, d, ?_, ?_, ?_, ?_, ?_, ?_⟩
      · rw [hup _ (by decide) (hkeep _ (by decide)) (by decide),
          hp6 _ (by decide), hp5 _ (by decide)]
        exact ha
      · rw [hup _ (by decide) (hkeep _ (by decide)) (by decide),
          hp6 _ (by decide), hp5 _ (by decide)]
        exact hb
      · rw [hup _ (by decide) (hkeep _ (by decide)) (by decide), hp6 _ (by decide), hv5,
          ha, hb]
        rfl
      · rw [hup _ (by decide) (hkeep _ (by decide)) (by decide),
          hp6 _ (by decide), hp5 _ (by decide)]
        exact hc
      · rw [hup _ (by decide) (hkeep _ (by decide)) (by decide),
          hp6 _ (by decide), hp5 _ (by decide)]
        exact hd
      · rw [hup _ (by decide) (hkeep _ (by decide)) (by decide), hv6,
          hp5 _ (by decide), hp5 _ (by decide), hc, hd]
        rfl
    · rw [if_neg (not_not_intro hy), if_pos hrc] at h
      exact absurd h (by simp)
  · rw [if_pos hy] at h
    exact absurd h (by simp)

set_option maxRecDepth 16000 in
set_option maxHeartbeats 1000000 in
/-- C8: when both operating and investment source columns exist after
renaming, every output row of `transform_region_budgets` satisfies
total_revenue = operating_revenue + investment_revenue and
total_expenditure = operating_expenditure + investment_expenditure (the
components having been coerced with missing values filled as 0); and the
spec scenario row transforms to year 2023, region_code "011", region_name
"Ile-De-France", total_revenue 6000000, total_expenditure 5300000. -/
theorem budget_totals :
    (∀ df t, transform_region_budgets df = Except.ok t →
      "operating_revenue" ∈ renamedBudgetCols df →
      "investment_revenue" ∈ renamedBudgetCols df →
      "operating_expenditure" ∈ renamedBudgetCols df →
      "investment_expenditure" ∈ renamedBudgetCols df →
      ∀ r ∈ t.rows, ∃ a b c d : ℚ,
        Row.get r "operating_revenue" = Cell.num a ∧
        Row.get r "investment_revenue" = Cell.num b ∧
        Row.get r "total_revenue" = Cell.num (a + b) ∧
        Row.get r "operating_expenditure" = Cell.num c ∧
        Row.get r "investment_expenditure" = Cell.num d ∧
        Row.get r "total_expenditure" = Cell.num (c + d)) ∧
    (rowsOf (transform_region_budgets scenarioBudget)).map
      (fun r => (r.get "year", r.get "region_code", r.get "region_name",
        r.get "total_revenue", r.get "total_expenditure")) =
      [(Cell.num 2023, Cell.str "011", Cell.str "Ile-De-France",
        Cell.num 6000000, Cell.num 5300000)] := by
  constructor
  · exact fun df t h h1 h2 h3 h4 => budget_totals_trace df t h h1 h2 h3 h4
  · norm_num +decide [transform_region_budgets, rowsOf, scenarioBudget, BUDGET_COLUMN_MAP,
      Table.rename, Table.mapCol,
      Table.setCol, Table.select, Table.dropna, Row.get, Row.set, renameName,
      toNumeric, parseNumeral, fillZero, castInt, truncQ, cellToStr, natToDigits,
      zfill3, pyStrip, pyTitle, titleChars, isCased, lowerChar, isPySpace,
      stripRegTag, cleanRegionName, addCell, budgetNumericCols, budgetKeepCols,
      List.foldl, List.dropWhile, List.rdropWhile, List.find?, List.filter, List.all,
      digitsToNat]

set_option maxRecDepth 16000 in
set_option maxHeartbeats 1000000 in
/-- C8 witness: the totals theorem instantiated on the spec scenario row. -/
theorem budget_totals_witness :
    ∃ a b c d : ℚ,
      Row.get scenarioOutRow "operating_revenue" = Cell.num a ∧
      Row.get scenarioOutRow "investment_revenue" = Cell.num b ∧
      Row.get scenarioOutRow "total_revenue" = Cell.num (a + b) ∧
      Row.get scenarioOutRow "operating_expenditure" = Cell.num c ∧
      Row.get scenarioOutRow "investment_expenditure" = Cell.num d ∧
      Row.get scenarioOutRow "total_expenditure" = Cell.num (c + d) := by
  have hok : transform_region_budgets scenarioBudget = Except.ok scenarioOut := by
    norm_num +decide [transform_region_budgets, scenarioBudget, scenarioOut, scenarioOutRow,
      BUDGET_COLUMN_MAP, Table.rename, Table.mapCol,
      Table.setCol, Table.select, Table.dropna, Row.get, Row.set, renameName,
      toNumeric, parseNumeral, fillZero, castInt, truncQ, cellToStr, natToDigits,
      zfill3, pyStrip, pyTitle, titleChars, isCased, lowerChar, isPySpace,
      stripRegTag, cleanRegionName, addCell, budgetNumericCols, budgetKeepCols,
      List.foldl, List.dropWhile, List.rdropWhile, List.find?, List.filter, List.all,
      digitsToNat]
  exact budget_totals.1 scenarioBudget scenarioOut hok (by decide) (by decide) (by decide)
    (by decide) scenarioOutRow (List.mem_cons_self _ _)


set_option maxHeartbeats 3200000 in
/-- C2 (amended): in every table returned by `compute_region_stats`, a row
with total_population = 0 has revenue_per_capita equal to total_revenue
rounded to two decimals (round half to even) and likewise for
expenditure — a plain number, never infinity/NaN/null; the denominator is
total_population with 0 replaced by 1. -/
theorem compute_region_stats_zero_population (budgets communes_agg t : Table)
    (h : compute_region_stats budgets communes_agg = Except.ok t) :
    ∀ r ∈ t.rows, Row.get r "total_population" = Cell.num 0 →
      (∀ x : ℚ, Row.get r "total_revenue" = Cell.num x →
        Row.get r "revenue_per_capita" = Cell.num (round2 x)) ∧
      (∀ x : ℚ, Row.get r "total_expenditure" = Cell.num x →
        Row.get r "expenditure_per_capita" = Cell.num (round2 x)) := by
  simp only [compute_region_stats] at h
  by_cases h1 : "region_code" ∈ budgets.cols
  case neg => rw [if_pos h1] at h; exact absurd h (by simp)
  by_cases h2 : "region_code" ∈ communes_agg.cols
  case neg =>
    rw [if_neg (not_not_intro h1), if_pos h2] at h
    exact absurd h (by simp)
  by_cases h3 : "total_population" ∈ communes_agg.cols ∧ "num_communes" ∈ communes_agg.cols
  case neg =>
    rw [if_neg (not_not_intro h1), if_neg (not_not_intro h2), if_pos h3] at h
    exact absurd h (by simp)
  rw [if_neg (not_not_intro h1), if_neg (not_not_intro h2), if_neg (not_not_intro h3)] at h
  set B := budgets.mapCol "region_code" stripJoinKey with hB
  set CA := communes_agg.mapCol "region_code" stripJoinKey with hCA
  set MR := B.rows.flatMap (fun rb =>
    ((CA.select ["region_code", "total_population", "num_communes"]).rows.filter
      (fun rc => decide (Row.get rc "region_code" = Row.get rb "region_code"))).map
      (fun rc =>
        Row.set (Row.set rb "total_population" (Row.get rc "total_population"))
          "num_communes" (Row.get rc "num_communes"))) with hMR
  by_cases hemp : (Table.mk (budgets.cols ++ ["total_population", "num_communes"]) MR).rows.isEmpty
  · rw [if_pos hemp] at h
    simp only [Except.ok.injEq] at h
    subst h
    intro r hr
    rw [List.isEmpty_iff] at hemp
    rw [show (Table.mk (budgets.cols ++ ["total_population", "num_communes"]) MR).rows = MR
      from rfl] at hemp
    rw [show (Table.mk (budgets.cols ++ ["total_population", "num_communes"]) MR).rows = MR
      from rfl, hemp] at hr
    cases hr
  · rw [if_neg hemp] at h
    set M := Table.mk (budgets.cols ++ ["total_population", "num_communes"]) MR with hM
    by_cases htr : "total_revenue" ∈ M.cols
    case neg => rw [if_pos htr] at h; exact absurd h (by simp)
    by_cases hte : "total_expenditure" ∈ M.cols
    case neg =>
      rw [if_neg (not_not_intro htr), if_pos hte] at h
      exact absurd h (by simp)
    rw [if_neg (not_not_intro htr), if_neg (not_not_intro hte)] at h
    set M1 := M.setCol "revenue_per_capita"
      (fun r => round2Cell (divCell (Row.get r "total_revenue")
        (replaceZeroOne (Row.get r "total_population")))) with hM1
    set M2 := M1.setCol "expenditure_per_capita"
      (fun r => round2Cell (divCell (Row.get r "total_expenditure")
        (replaceZeroOne (Row.get r "total_population")))) with hM2
    simp only [Except.ok.injEq] at h
    subst h
    -- column membership facts
    have hM1sub : M.cols ⊆ M1.cols := setCol_cols_sub _
    have hM2sub : M1.cols ⊆ M2.cols := setCol_cols_sub _
    have htpM : "total_population" ∈ M.cols := by
      rw [hM]
      exact List.mem_append_right _ (by decide)
    have hkeep : ∀ X ∈ (["total_population", "total_revenue", "total_expenditure",
        "revenue_per_capita", "expenditure_per_capita"] : List String),
        X ∈ statsKeepCols.filter (fun c => decide (c ∈ M2.cols)) := by
      intro X hX
      refine List.mem_filter.mpr ⟨?_, decide_eq_true ?_⟩
      · simp only [List.mem_cons, List.not_mem_nil, or_false] at hX
        rcases hX with rfl | rfl | rfl | rfl | rfl <;> decide
      · simp only [List.mem_cons, List.not_mem_nil, or_false] at hX
        rcases hX with rfl | rfl | rfl | rfl | rfl
        · exact hM2sub (hM1sub htpM)
        · exact hM2sub (hM1sub htr)
        · exact hM2sub (hM1sub hte)
        · exact hM2sub (mem_setCol_cols _)
        · exact mem_setCol_cols _
    intro r hr hpop
    obtain ⟨r2, hr2, hp2⟩ := select_trace _ _ r hr
    obtain ⟨r1, hr1, hv2, hp1⟩ := setCol_trace _ _ _ r2 hr2
    obtain ⟨r0, hr0, hv1, hp0⟩ := setCol_trace _ _ _ r1 hr1
    have hpop0 : Row.get r0 "total_population" = Cell.num 0 := by
      rw [← hp0 "total_population" (by decide), ← hp1 "total_population" (by decide),
        ← hp2 "total_population" (hkeep "total_population" (by decide))]
      exact hpop
    constructor
    · intro x hx
      have hx0 : Row.get r0 "total_revenue" = Cell.num x := by
        rw [← hp0 "total_revenue" (by decide), ← hp1 "total_revenue" (by decide),
          ← hp2 "total_revenue" (hkeep "total_revenue" (by decide))]
        exact hx
      rw [hp2 "revenue_per_capita" (hkeep "revenue_per_capita" (by decide)),
        hp1 "revenue_per_capita" (by decide), hv1, hx0, hpop0]
      show Cell.num (round2 (x / 1)) = Cell.num (round2 x)
      rw [div_one]
    · intro x hx
      have hx1 : Row.get r1 "total_expenditure" = Cell.num x := by
        rw [← hp1 "total_expenditure" (by decide),
          ← hp2 "total_expenditure" (hkeep "total_expenditure" (by decide))]
        exact hx
      have hpop1 : Row.get r1 "total_population" = Cell.num 0 := by
        rw [hp0 "total_population" (by decide)]
        exact hpop0
      rw [hp2 "expenditure_per_capita" (hkeep "expenditure_per_capita" (by decide)), hv2,
        hx1, hpop1]
      show Cell.num (round2 (x / 1)) = Cell.num (round2 x)
      rw [div_one]

set_option maxRecDepth 16000 in
set_option maxHeartbeats 1000000 in
/-- C2 witness: the zero-population theorem instantiated on the concrete
join of `eighthBudget` with `zeroPopAgg`. -/
theorem compute_region_stats_zero_population_witness :
    Row.get statsZeroRow "revenue_per_capita" = Cell.num (round2 (1/8)) ∧
    Row.get statsZeroRow "expenditure_per_capita" = Cell.num (round2 (1/8)) := by
  have hok : compute_region_stats eighthBudget zeroPopAgg = Except.ok statsZeroOut := by
    norm_num +decide [compute_region_stats, eighthBudget, zeroPopAgg, statsZeroOut,
      statsZeroRow, Table.mapCol, Table.setCol, Table.select, Row.get, Row.set,
      cellToStr, natToDigits, pyStrip, isPySpace, stripJoinKey, lstripZeros,
      divCell, replaceZeroOne, round2Cell, statsKeepCols,
      List.foldl, List.dropWhile, List.rdropWhile, List.find?, List.filter, List.all,
      List.flatMap, List.isEmpty]
  have hkey := compute_region_stats_zero_population eighthBudget zeroPopAgg statsZeroOut hok
    statsZeroRow (List.mem_cons_self _ _)
    (by norm_num +decide [Row.get, statsZeroRow, List.find?])
  exact ⟨hkey.1 (1/8) (by norm_num +decide [Row.get, statsZeroRow, List.find?]),
    hkey.2 (1/8) (by norm_num +decide [Row.get, statsZeroRow, List.find?])⟩



theorem sumCells_int (P : Prop) :
    ∀ (l : List Cell), (∀ c ∈ l, ∃ m : ℤ, c = Cell.num (m : ℚ) ∧ (P → 0 ≤ m)) →
      ∃ n : ℤ, sumCells l = (n : ℚ) ∧ (P → 0 ≤ n) := by
  have aux : ∀ (l : List Cell) (a : ℤ),
      (∀ c ∈ l, ∃ m : ℤ, c = Cell.num (m : ℚ) ∧ (P → 0 ≤ m)) →
      ∃ n : ℤ, (l.foldl (fun acc c =>
        match c with | Cell.num q => acc + q | _ => acc) (a : ℚ)) = (n : ℚ) ∧
        (P → 0 ≤ a → 0 ≤ n) := by
    intro l
    induction l with
    | nil => intro a _; exact ⟨a, rfl, fun _ h => h⟩
    | cons c cs ih =>
        intro a hc
        obtain ⟨m, rfl, hm⟩ := hc c (List.mem_cons_self _ _)
        simp only [List.foldl_cons]
        have hcast : ((a : ℚ) + (m : ℚ)) = ((a + m : ℤ) : ℚ) := by push_cast; ring
        rw [hcast]
        obtain ⟨n, hn, hnn⟩ := ih (a + m) (fun x hx => hc x (List.mem_cons_of_mem _ hx))
        exact ⟨n, hn, fun hP ha => hnn hP (by have := hm hP; omega)⟩
  intro l hl
  obtain ⟨n, hn, hnn⟩ := aux l 0 hl
  refine ⟨n, ?_, fun hP => hnn hP le_rfl⟩
  rw [sumCells, show (0 : ℚ) = ((0 : ℤ) : ℚ) by norm_num]
  exact hn

set_option maxHeartbeats 3200000 in
/-- C3 (amended): every population value is coerced to an integer before
aggregation (missing/unparseable become 0; negative values are kept), so
every output row's total_population is an integer — non-negative whenever
every coerced input population is non-negative — and num_communes is a
non-negative integer (a natural count). -/
theorem aggregate_population_integral (df t : Table) (code_col pop_col : String)
    (hc : find_col df ["reg_code", "code_region", "region_code"] = some code_col)
    (hp : find_col df ["population", "pop"] = some pop_col)
    (h : aggregate_communes_by_region df = Except.ok t) :
    ∀ r ∈ t.rows,
      (∃ n : ℤ, Row.get r "total_population" = Cell.num (n : ℚ) ∧
        ((∀ r' ∈ df.rows, 0 ≤ popValue (Row.get r' pop_col)) → 0 ≤ n)) ∧
      (∃ k : ℕ, Row.get r "num_communes" = Cell.num (k : ℚ)) := by
  have hpc : ¬ pop_col = code_col := by
    have hm1 := (find_col_mem hc).1
    have hm2 := (find_col_mem hp).1
    simp only [List.mem_cons, List.not_mem_nil, or_false] at hm1 hm2
    rcases hm1 with rfl | rfl | rfl <;> rcases hm2 with rfl | rfl <;> decide
  have hcodemem := (find_col_mem hc).1
  simp only [List.mem_cons, List.not_mem_nil, or_false] at hcodemem
  simp only [aggregate_communes_by_region, hc, hp, Except.ok.injEq] at h
  subst h
  intro r hr
  simp only [Table.rename, List.map_map] at hr
  rcases List.mem_map.mp hr with ⟨k, hk, he⟩
  simp only [Function.comp_apply, List.map_cons, List.map_nil] at he
  have h2 : renameName [(code_col, "region_code")] "total_population" = "total_population" :=
    renameName_eq_self (fun p hp' => by
      rcases List.mem_singleton.mp hp' with rfl
      rcases hcodemem with rfl | rfl | rfl <;> decide)
  have h3 : renameName [(code_col, "region_code")] "num_communes" = "num_communes" :=
    renameName_eq_self (fun p hp' => by
      rcases List.mem_singleton.mp hp' with rfl
      rcases hcodemem with rfl | rfl | rfl <;> decide)
  have h1 : renameName [(code_col, "region_code")] code_col = "region_code" := by
    simp [renameName]
  rw [h1, h2, h3] at he
  -- the group of processed rows for key k, traced back to df.rows
  set T1 := df.mapCol pop_col (fun c => castInt (fillZero (toNumeric c))) with hT1
  set T2 := T1.mapCol code_col (fun c => Cell.str (pyStrip (cellToStr c))) with hT2
  have hcells : ∀ c ∈ ((T2.rows.filter
      (fun r' => decide (cellToStr (Row.get r' code_col) = k))).map
      (fun r' => Row.get r' pop_col)),
      ∃ m : ℤ, c = Cell.num (m : ℚ) ∧
        ((∀ r' ∈ df.rows, 0 ≤ popValue (Row.get r' pop_col)) → 0 ≤ m) := by
    intro c hcmem
    rcases List.mem_map.mp hcmem with ⟨r2, hr2, hce⟩
    have hr2' := List.mem_of_mem_filter hr2
    rw [hT2] at hr2'
    obtain ⟨r1, hr1, -, hp2⟩ := mapCol_trace _ _ _ r2 hr2'
    rw [hT1] at hr1
    obtain ⟨r0, hr0, hv1, -⟩ := mapCol_trace _ _ _ r1 hr1
    obtain ⟨q, hq⟩ := fillZero_toNumeric_num (Row.get r0 pop_col)
    refine ⟨truncQ q, ?_, ?_⟩
    · rw [← hce, hp2 pop_col hpc, hv1, hq]
      rfl
    · intro hP
      have := hP r0 hr0
      rw [popValue, hq] at this
      exact this
  constructor
  · obtain ⟨n, hn, hnn⟩ := sumCells_int _ _ hcells
    refine ⟨n, ?_, hnn⟩
    rw [← he]
    rw [Row.get_cons_ne _ _ _ _ (by decide), Row.get_cons_same, hn]
  · refine ⟨countNonNull ((T2.rows.filter
      (fun r' => decide (cellToStr (Row.get r' code_col) = k))).map
      (fun r' => Row.get r' pop_col)), ?_⟩
    rw [← he]
    rw [Row.get_cons_ne _ _ _ _ (by decide), Row.get_cons_ne _ _ _ _ (by decide),
      Row.get_cons_same]

set_option maxRecDepth 16000 in
set_option maxHeartbeats 1000000 in
/-- C3 witness: the integrality theorem instantiated on `unsortedCommunes`
(all populations non-negative). -/
theorem aggregate_population_integral_witness :
    ∃ n : ℤ, Row.get [("region_code", Cell.str "1"), ("total_population", Cell.num 10),
      ("num_communes", Cell.num 1), ("region_name", Cell.str "1")] "total_population"
      = Cell.num (n : ℚ) ∧ 0 ≤ n := by
  have hok : aggregate_communes_by_region unsortedCommunes = Except.ok aggUnsortedOut := by
    norm_num +decide [aggregate_communes_by_region, unsortedCommunes, aggUnsortedOut, find_col,
      Table.mapCol, Table.rename, Row.get, Row.set, renameName,
      toNumeric, parseNumeral, fillZero, castInt, truncQ, cellToStr, natToDigits,
      pyStrip, isPySpace, digitsToNat, Char.isDigit, sumCells, countNonNull, firstNonNull,
      List.foldl, List.dropWhile, List.rdropWhile, List.find?, List.filter, List.all,
      List.insertionSort, List.orderedInsert, List.dedup, List.map, List.takeWhile]
  obtain ⟨⟨n, hn, hnn⟩, -⟩ := aggregate_population_integral unsortedCommunes aggUnsortedOut
    "reg_code" "population" (by decide) (by decide) hok
    [("region_code", Cell.str "1"), ("total_population", Cell.num 10),
     ("num_communes", Cell.num 1), ("region_name", Cell.str "1")] (List.mem_cons_self _ _)
  exact ⟨n, hn, hnn (by decide)⟩



theorem cellToStr_str (s : String) : cellToStr (Cell.str s) = s := rfl

theorem firstNonNull_const {k : String} :
    ∀ {l : List Cell}, l ≠ [] → (∀ c ∈ l, c = Cell.str k) → firstNonNull l = Cell.str k := by
  intro l hne hall
  cases l with
  | nil => exact absurd rfl hne
  | cons a rest =>
      have ha := hall a (List.mem_cons_self _ _)
      subst ha
      unfold firstNonNull
      rw [List.find?_cons_of_pos _ (by simp)]

set_option maxHeartbeats 3200000 in
/-- C5 (amended): each output row's region_name is the first NON-NULL
region-name value for that region code in input row order (pandas groupby
`first` skips missing values; the result is null only when every name in
the group is null); when no region-name column resolves, region_name
falls back to the region code itself and is never null. -/
theorem aggregate_region_name_first_nonnull (df t : Table) (code_col pop_col : String)
    (hc : find_col df ["reg_code", "code_region", "region_code"] = some code_col)
    (hp : find_col df ["population", "pop"] = some pop_col)
    (h : aggregate_communes_by_region df = Except.ok t) :
    ∀ r ∈ t.rows, ∃ k : String,
      Row.get r "region_code" = Cell.str k ∧
      (∀ nc, find_col df ["reg_nom", "nom_region", "region_name"] = some nc →
        Row.get r "region_name" = firstNonNull ((df.rows.filter
          (fun r' => decide (pyStrip (cellToStr (Row.get r' code_col)) = k))).map
          (fun r' => Row.get r' nc))) ∧
      (find_col df ["reg_nom", "nom_region", "region_name"] = none →
        Row.get r "region_name" = Cell.str k) := by
  have hcodemem := (find_col_mem hc).1
  have hpopmem := (find_col_mem hp).1
  simp only [List.mem_cons, List.not_mem_nil, or_false] at hcodemem hpopmem
  have hpc : ¬ pop_col = code_col := by
    rcases hcodemem with rfl | rfl | rfl <;> rcases hpopmem with rfl | rfl <;> decide
  simp only [aggregate_communes_by_region, hc, hp, Except.ok.injEq] at h
  subst h
  intro r hr
  simp only [Table.rename, List.map_map] at hr
  rcases List.mem_map.mp hr with ⟨k, hk, he⟩
  simp only [Function.comp_apply, List.map_cons, List.map_nil] at he
  have h1 : renameName [(code_col, "region_code")] code_col = "region_code" := by
    simp [renameName]
  have h2 : renameName [(code_col, "region_code")] "total_population" = "total_population" :=
    renameName_eq_self (fun p hp' => by
      rcases List.mem_singleton.mp hp' with rfl
      rcases hcodemem with rfl | rfl | rfl <;> decide)
  have h3 : renameName [(code_col, "region_code")] "num_communes" = "num_communes" :=
    renameName_eq_self (fun p hp' => by
      rcases List.mem_singleton.mp hp' with rfl
      rcases hcodemem with rfl | rfl | rfl <;> decide)
  have h4 : renameName [(code_col, "region_code")] "region_name" = "region_name" :=
    renameName_eq_self (fun p hp' => by
      rcases List.mem_singleton.mp hp' with rfl
      rcases hcodemem with rfl | rfl | rfl <;> decide)
  rw [h1, h2, h3, h4] at he
  set f1 := fun r' : Row =>
    Row.set r' pop_col (castInt (fillZero (toNumeric (Row.get r' pop_col)))) with hf1
  set f2 := fun r' : Row =>
    Row.set r' code_col (Cell.str (pyStrip (cellToStr (Row.get r' code_col)))) with hf2
  have hkey : ∀ r' : Row, Row.get (f2 (f1 r')) code_col =
      Cell.str (pyStrip (cellToStr (Row.get r' code_col))) := by
    intro r'
    simp only [hf2, hf1]
    rw [Row.get_set_same, Row.get_set_ne _ _ _ _ (fun hh => hpc hh.symm)]
  have hT2rows : (((df.mapCol pop_col (fun c => castInt (fillZero (toNumeric c)))).mapCol
      code_col (fun c => Cell.str (pyStrip (cellToStr c)))).rows) = df.rows.map (f2 ∘ f1) := by
    simp only [Table.mapCol, List.map_map]
  have hfilter : (((df.mapCol pop_col (fun c => castInt (fillZero (toNumeric c)))).mapCol
      code_col (fun c => Cell.str (pyStrip (cellToStr c)))).rows).filter
      (fun r' => decide (cellToStr (Row.get r' code_col) = k)) =
      (df.rows.filter
        (fun r' => decide (pyStrip (cellToStr (Row.get r' code_col)) = k))).map (f2 ∘ f1) := by
    rw [hT2rows, List.filter_map]
    congr 1
    apply List.filter_congr
    intro r' _
    simp only [Function.comp_apply, hkey r', cellToStr_str]
  refine ⟨k, ?_, ?_, ?_⟩
  · rw [← he, Row.get_cons_same]
  · intro nc hn
    have hnamemem := (find_col_mem hn).1
    simp only [List.mem_cons, List.not_mem_nil, or_false] at hnamemem
    have hnc1 : ¬ nc = code_col := by
      rcases hcodemem with rfl | rfl | rfl <;> rcases hnamemem with rfl | rfl | rfl <;> decide
    have hnc2 : ¬ nc = pop_col := by
      rcases hpopmem with rfl | rfl <;> rcases hnamemem with rfl | rfl | rfl <;> decide
    rw [hn] at he
    rw [← he, Row.get_cons_ne _ _ _ _ (by decide), Row.get_cons_ne _ _ _ _ (by decide),
      Row.get_cons_ne _ _ _ _ (by decide), Row.get_cons_same]
    show firstNonNull _ = _
    rw [hfilter, List.map_map]
    congr 1
    apply List.map_congr_left
    intro r' _
    simp only [Function.comp_apply, hf2, hf1]
    rw [Row.get_set_ne _ _ _ _ hnc1, Row.get_set_ne _ _ _ _ hnc2]
  · intro hn
    rw [hn] at he
    rw [← he, Row.get_cons_ne _ _ _ _ (by decide), Row.get_cons_ne _ _ _ _ (by decide),
      Row.get_cons_ne _ _ _ _ (by decide), Row.get_cons_same]
    show firstNonNull _ = _
    apply firstNonNull_const
    · have hkL : k ∈ (((df.mapCol pop_col (fun c => castInt (fillZero (toNumeric c)))).mapCol
          code_col (fun c => Cell.str (pyStrip (cellToStr c)))).rows).map
          (fun r' => cellToStr (Row.get r' code_col)) := by
        have hkd := (List.perm_insertionSort (r := (· ≤ ·)) _).mem_iff.mp hk
        exact List.mem_dedup.mp hkd
      rcases List.mem_map.mp hkL with ⟨r2, hr2, hke⟩
      have hin : r2 ∈ (((df.mapCol pop_col (fun c => castInt (fillZero (toNumeric c)))).mapCol
          code_col (fun c => Cell.str (pyStrip (cellToStr c)))).rows).filter
          (fun r' => decide (cellToStr (Row.get r' code_col) = k)) :=
        List.mem_filter.mpr ⟨hr2, decide_eq_true hke⟩
      exact List.ne_nil_of_mem (List.mem_map_of_mem _ hin)
    · intro c hcm
      rcases List.mem_map.mp hcm with ⟨r2, hr2, hce⟩
      have hmem := List.mem_of_mem_filter hr2
      have hpred := List.of_mem_filter hr2
      simp only [decide_eq_true_eq] at hpred
      rw [hT2rows] at hmem
      rcases List.mem_map.mp hmem with ⟨r0, -, hre⟩
      rw [← hce, ← hre]
      simp only [Function.comp_apply]
      rw [hkey r0]
      rw [← hre] at hpred
      simp only [Function.comp_apply] at hpred
      rw [hkey r0] at hpred
      rw [cellToStr_str] at hpred
      rw [hpred]

set_option maxRecDepth 16000 in
set_option maxHeartbeats 1000000 in
/-- C5 witness: the first-non-null theorem instantiated on
`nullFirstName`, whose first name cell for region "1" is null. -/
theorem aggregate_region_name_first_nonnull_witness :
    Row.get aggNullRow "region_name" =
      firstNonNull ((nullFirstName.rows.filter
        (fun r' => decide (pyStrip (cellToStr (Row.get r' "reg_code")) = "1"))).map
        (fun r' => Row.get r' "reg_nom")) := by
  have hok : aggregate_communes_by_region nullFirstName = Except.ok aggNullOut := by
    norm_num +decide [aggregate_communes_by_region, nullFirstName, aggNullOut, aggNullRow,
      find_col, Table.mapCol, Table.rename, Row.get, Row.set, renameName,
      toNumeric, parseNumeral, fillZero, castInt, truncQ, cellToStr, natToDigits,
      pyStrip, isPySpace, digitsToNat, Char.isDigit, sumCells, countNonNull, firstNonNull,
      List.foldl, List.dropWhile, List.rdropWhile, List.find?, List.filter, List.all,
      List.insertionSort, List.orderedInsert, List.dedup, List.map, List.takeWhile]
  obtain ⟨k, hkc, hsome, -⟩ := aggregate_region_name_first_nonnull nullFirstName aggNullOut
    "reg_code" "population" (by decide) (by decide) hok aggNullRow (List.mem_cons_self _ _)
  have hv : Row.get aggNullRow "region_code" = Cell.str "1" := by decide
  have hk1 : k = "1" := by
    have h' := hkc.symm.trans hv
    simpa using h'
  subst hk1
  exact hsome "reg_nom" (by decide)

/-- Rewriting of the join-key strip as an explicit string cell. -/
theorem stripJoinKey_eq (c : Cell) : stripJoinKey c = Cell.str (stripKeyStr c) := rfl

/-- Counting matches on the processed communes side of the merge inside
`compute_region_stats`: filtering the stripped-and-selected rows for the
key `k` keeps exactly the input rows whose stripped region code is `k`. -/
theorem stats_match_count (communes_agg : Table) (k : String) :
    (((communes_agg.mapCol "region_code" stripJoinKey).select
        ["region_code", "total_population", "num_communes"]).rows.filter
      (fun rc => decide (Row.get rc "region_code" = Cell.str k))).length
    = (communes_agg.rows.filter (fun rc =>
        decide (stripKeyStr (Row.get rc "region_code") = k))).length := by
  simp only [Table.mapCol, Table.select, List.map_map, List.filter_map, List.length_map]
  refine congrArg List.length (List.filter_congr ?_)
  intro rc hrc
  simp only [Function.comp_apply]
  rw [decide_eq_decide]
  rw [Row.get_ofSelect, if_pos (show ("region_code" : String) ∈
    ["region_code", "total_population", "num_communes"] from by decide)]
  rw [Row.get_set_same, stripJoinKey_eq, Cell.str.injEq]

set_option maxHeartbeats 1000000 in
/-- C6: `compute_region_stats` joins on the region codes stripped of
surrounding whitespace and of leading zeros (no re-padding): given the
required columns it never errors, the output has exactly one row per pair
of input rows with equal stripped keys (so unmatched rows on either side
are silently dropped), and when the stripped region-code sets of the two
tables are disjoint it returns the zero-row table with the merged schema
instead of raising an exception. -/
theorem compute_region_stats_join (budgets communes_agg : Table)
    (h1 : "region_code" ∈ budgets.cols)
    (h2 : "region_code" ∈ communes_agg.cols)
    (h3 : "total_population" ∈ communes_agg.cols ∧ "num_communes" ∈ communes_agg.cols)
    (htr : "total_revenue" ∈ budgets.cols)
    (hte : "total_expenditure" ∈ budgets.cols) :
    (∃ t : Table, compute_region_stats budgets communes_agg = Except.ok t ∧
      t.rows.length = (budgets.rows.map (fun rb =>
        (communes_agg.rows.filter (fun rc =>
          decide (stripKeyStr (Row.get rc "region_code") =
            stripKeyStr (Row.get rb "region_code")))).length)).sum) ∧
    ((∀ rb ∈ budgets.rows, ∀ rc ∈ communes_agg.rows,
        ¬ stripKeyStr (Row.get rb "region_code") = stripKeyStr (Row.get rc "region_code")) →
      compute_region_stats budgets communes_agg =
        Except.ok ⟨budgets.cols ++ ["total_population", "num_communes"], []⟩) := by
  simp only [compute_region_stats]
  rw [if_neg (not_not_intro h1), if_neg (not_not_intro h2), if_neg (not_not_intro h3)]
  set B := budgets.mapCol "region_code" stripJoinKey with hB
  set CA := communes_agg.mapCol "region_code" stripJoinKey with hCA
  set MR := B.rows.flatMap (fun rb =>
    ((CA.select ["region_code", "total_population", "num_communes"]).rows.filter
      (fun rc => decide (Row.get rc "region_code" = Row.get rb "region_code"))).map
      (fun rc =>
        Row.set (Row.set rb "total_population" (Row.get rc "total_population"))
          "num_communes" (Row.get rc "num_communes"))) with hMR
  have hlen : MR.length = (budgets.rows.map (fun rb =>
      (communes_agg.rows.filter (fun rc =>
        decide (stripKeyStr (Row.get rc "region_code") =
          stripKeyStr (Row.get rb "region_code")))).length)).sum := by
    rw [hMR, List.length_flatMap]
    have hBrows : B.rows = budgets.rows.map
        (fun r => Row.set r "region_code" (stripJoinKey (Row.get r "region_code"))) := by
      rw [hB]
      rfl
    rw [hBrows]
    rw [List.map_map]
    refine congrArg List.sum (List.map_congr_left ?_)
    intro rb0 hrb0
    simp only [Function.comp_apply, List.length_map]
    rw [hCA, Row.get_set_same, stripJoinKey_eq]
    exact stats_match_count communes_agg (stripKeyStr (Row.get rb0 "region_code"))
  constructor
  · by_cases hemp : (Table.mk (budgets.cols ++ ["total_population", "num_communes"]) MR).rows.isEmpty
    · rw [if_pos hemp]
      exact ⟨_, rfl, hlen⟩
    · rw [if_neg hemp]
      rw [if_neg (not_not_intro (List.mem_append_left _ htr)),
        if_neg (not_not_intro (List.mem_append_left _ hte))]
      refine ⟨_, rfl, ?_⟩
      simp only [Table.select, Table.setCol, List.length_map]
      exact hlen
  · intro hd
    have hnil : MR = [] := by
      rw [← List.length_eq_zero, hlen]
      apply List.sum_eq_zero
      intro x hx
      obtain ⟨rb, hrb, hxeq⟩ := List.mem_map.mp hx
      subst hxeq
      simp only [List.length_eq_zero, List.filter_eq_nil_iff, decide_eq_true_eq]
      intro rc hrc
      exact fun hq => hd rb hrb rc hrc hq.symm
    rw [hnil]
    rfl

/-- C6 witness: on `disjointBudget` and `oneAgg` the stripped keys "999"
and "1" are disjoint, and the function returns the empty merged table. -/
theorem compute_region_stats_join_witness :
    compute_region_stats disjointBudget oneAgg =
      Except.ok ⟨disjointBudget.cols ++ ["total_population", "num_communes"], []⟩ :=
  (compute_region_stats_join disjointBudget oneAgg (by decide) (by decide)
    (by decide) (by decide) (by decide)).2 (by decide)

end GovSense

